import Mathlib

/-!
# Verification of the web-chat-game visualization client

Shallow embedding of the client-side runtime of the repository
`00000DaveX00000/web-chat-game`: the reconnecting WebSocket transport
(`src/web/static/ws.js`, final `GameWS` module, lines 1588-1748), and the
battle scene's state reconciler and animation sequencer
(`src/web/static/scenes/BattleScene.js`, the V5 scene, lines 6-1105).

Conventions of the embedding:
* JavaScript numbers that the code only adds, doubles and compares are `Nat`
  or `Int`; quantities that are divided (hp ratios, cast progress, times) are
  `ℚ`.
* A JavaScript field that may be `undefined` is an `Option`; the `a || b`
  idiom on strings (where `''` is falsy) is `jsOrS`.
* The mutable registries (`this._entities`, `this._hpBars`, ...) are
  functions `String → Option _`; `delete` stores `none`.
* Phaser tweens are modelled by recording the target the tween drives the
  object towards (`tween*` fields); starting a tween with the same target
  twice leaves that model field unchanged, matching the visual outcome.
-/

/-- JS `a || b` for possibly-undefined strings: `undefined` and `''` are falsy. -/
def jsOrS (a b : Option String) : Option String :=
  match a with
  | some s => if s = "" then b else some s
  | none => b

/-- JS string truthiness: `undefined` and `''` are falsy. -/
def jsTruthyS (a : Option String) : Bool :=
  match a with
  | some s => s ≠ ""
  | none => false

/-! ## Reconnecting transport (`GameWS`, ws.js lines 1588-1748)

State of the module-level variables `_reconnectTimer`, `_reconnectDelay` and
`_connected`.  A pending `setTimeout` handle is modelled as the delay it was
armed with; `timersCreated` counts `setTimeout` calls so that "no second
timer is created" is stated directly. -/

structure GameWSState where
  /-- `_reconnectTimer`: `none` when the JS variable is `null`, otherwise the
  delay (ms) the pending timeout was armed with. -/
  reconnectTimer : Option Nat
  /-- `_reconnectDelay` in milliseconds. -/
  reconnectDelay : Nat
  /-- `_connected`. -/
  connected : Bool
  /-- Ghost counter of `setTimeout` calls made by `_scheduleReconnect`. -/
  timersCreated : Nat
  deriving Repr, DecidableEq

/-- Initial module state: `_reconnectTimer = null`, `_reconnectDelay = 1000`. -/
def initialGameWS : GameWSState :=
  { reconnectTimer := none, reconnectDelay := 1000, connected := false,
    timersCreated := 0 }

/-- `_maxReconnectDelay = 8000` (ws.js line 1595). -/
def maxReconnectDelay : Nat := 8000

/-- `_scheduleReconnect` (ws.js lines 1662-1669): if a timer is pending the
call returns at once; otherwise a timeout is armed with the current
`_reconnectDelay`. -/
def scheduleReconnect (s : GameWSState) : GameWSState :=
  match s.reconnectTimer with
  | some _ => s
  | none =>
      { s with reconnectTimer := some s.reconnectDelay,
               timersCreated := s.timersCreated + 1 }

/-- The body of the timeout armed by `_scheduleReconnect` (ws.js lines
1664-1668): clear the handle, call `connect()` (which has no effect on the
modelled variables) and double the delay, capped at `_maxReconnectDelay`.
If no timer is pending nothing can fire. -/
def reconnectTimerFire (s : GameWSState) : GameWSState :=
  match s.reconnectTimer with
  | none => s
  | some _ =>
      { s with reconnectTimer := none,
               reconnectDelay := min (s.reconnectDelay * 2) maxReconnectDelay }

/-- `_ws.onopen` (ws.js lines 1620-1625): reset `_reconnectDelay` to 1000 and
mark the connection up. -/
def wsOnOpen (s : GameWSState) : GameWSState :=
  { s with reconnectDelay := 1000, connected := true }

/-- `_ws.onclose` (ws.js lines 1651-1655): mark the connection down and
schedule a reconnect. -/
def wsOnClose (s : GameWSState) : GameWSState :=
  scheduleReconnect { s with connected := false }

/-- One failed reconnection cycle: the connection closes (scheduling a
reconnect with the current delay) and the armed timer later fires (doubling
the delay and attempting the next connection). -/
def failCycle (s : GameWSState) : GameWSState :=
  reconnectTimerFire (wsOnClose s)

/-! ## Inbound frame dispatch (`_ws.onmessage`, ws.js lines 1627-1649)

A successfully parsed frame is `{type, data}`; the handler publishes on the
internal event bus via `_emit` only for the four recognized types.  The
payload type is abstract. -/

structure Frame (α : Type) where
  type : String
  data : α
  deriving Repr, DecidableEq

/-- The `_emit` calls performed by `_ws.onmessage` for one inbound message.
`none` models a `JSON.parse` failure (the handler returns without emitting).
Translated from the if/else-if chain at ws.js lines 1634-1648. -/
def onMessageEmits {α : Type} (msg : Option (Frame α)) : List (String × α) :=
  match msg with
  | none => []
  | some m =>
      if m.type = "state_update" then [("state_update", m.data)]
      else if m.type = "combat_log" then [("combat_log", m.data)]
      else if m.type = "game_over" then [("game_over", m.data)]
      else if m.type = "animation" then [("animation", m.data)]
      else []

/-- The frame types the final `GameWS._ws.onmessage` dispatches on. -/
def knownFrameTypes : List String :=
  ["state_update", "combat_log", "game_over", "animation"]

/-! ### Transport theorems -/

/-- Closed form of the capped doubling. -/
lemma min_double_cap (a m : Nat) : min (min a m * 2) m = min (a * 2) m := by
  rcases Nat.le_total a m with h | h
  · rw [Nat.min_eq_left h]
  · rw [Nat.min_eq_right h, Nat.min_eq_right (by omega), Nat.min_eq_right (by omega)]

lemma failCycle_delay (s : GameWSState) :
    (failCycle s).reconnectDelay = min (s.reconnectDelay * 2) maxReconnectDelay := by
  cases h : s.reconnectTimer with
  | none => simp [failCycle, wsOnClose, scheduleReconnect, reconnectTimerFire, h]
  | some d => simp [failCycle, wsOnClose, scheduleReconnect, reconnectTimerFire, h]

lemma failCycle_timer (s : GameWSState) :
    (failCycle s).reconnectTimer = none := by
  cases h : s.reconnectTimer with
  | none => simp [failCycle, wsOnClose, scheduleReconnect, reconnectTimerFire, h]
  | some d => simp [failCycle, wsOnClose, scheduleReconnect, reconnectTimerFire, h]

lemma failCycle_iter_delay (s : GameWSState) (hd : s.reconnectDelay = 1000) :
    ∀ k : Nat, (failCycle^[k] s).reconnectDelay = min (1000 * 2 ^ k) 8000 := by
  intro k
  induction k with
  | zero => simpa using hd
  | succ n ih =>
      rw [Function.iterate_succ_apply', failCycle_delay, ih]
      show min (min (1000 * 2 ^ n) 8000 * 2) maxReconnectDelay = _
      rw [maxReconnectDelay, min_double_cap]
      ring_nf

lemma failCycle_iter_timer (s : GameWSState) (ht : s.reconnectTimer = none) :
    ∀ k : Nat, (failCycle^[k] s).reconnectTimer = none := by
  intro k
  cases k with
  | zero => simpa using ht
  | succ n => rw [Function.iterate_succ_apply']; exact failCycle_timer _

/-- C1.  Exponential backoff: starting from any transport state with no
pending timer, a successful open resets `_reconnectDelay` to 1000 ms, and
after `k` consecutive failed connection cycles the reconnect timer armed
before attempt `k+1` carries delay `min (1000 * 2 ^ k) 8000` ms. -/
theorem backoff_min_initial_pow_two_capped (s : GameWSState)
    (h : s.reconnectTimer = none) :
    (wsOnOpen s).reconnectDelay = 1000 ∧
    ∀ k : Nat,
      (scheduleReconnect (failCycle^[k] (wsOnOpen s))).reconnectTimer
        = some (min (1000 * 2 ^ k) 8000) := by
  refine ⟨rfl, fun k => ?_⟩
  have hdel : (failCycle^[k] (wsOnOpen s)).reconnectDelay = min (1000 * 2 ^ k) 8000 :=
    failCycle_iter_delay (wsOnOpen s) rfl k
  have htim : (failCycle^[k] (wsOnOpen s)).reconnectTimer = none :=
    failCycle_iter_timer (wsOnOpen s) (by simpa [wsOnOpen] using h) k
  simp [scheduleReconnect, htim, hdel]

/-- Witness for C1 at a concrete state and `k = 3`:
`min (1000 * 2 ^ 3) 8000 = 8000`. -/
theorem backoff_min_initial_pow_two_capped_witness :
    (wsOnOpen ⟨none, 4000, false, 5⟩).reconnectDelay = 1000 ∧
    (scheduleReconnect (failCycle^[3] (wsOnOpen ⟨none, 4000, false, 5⟩))).reconnectTimer
      = some 8000 := by
  have h := backoff_min_initial_pow_two_capped ⟨none, 4000, false, 5⟩ rfl
  exact ⟨h.1, by simpa using h.2 3⟩

/-- C9.  At most one reconnect timer: calling `_scheduleReconnect` while a
timer is pending leaves the state untouched — no new `setTimeout` happens
(`timersCreated` unchanged) and the pending delay is not modified. -/
theorem scheduleReconnect_pending_noop (s : GameWSState)
    (h : s.reconnectTimer.isSome) : scheduleReconnect s = s := by
  cases ht : s.reconnectTimer with
  | none => rw [ht] at h; simp at h
  | some d => simp [scheduleReconnect, ht]

/-- Witness for C9: scheduling with a pending 2000 ms timer is the identity. -/
theorem scheduleReconnect_pending_noop_witness :
    scheduleReconnect ⟨some 2000, 4000, false, 1⟩ = ⟨some 2000, 4000, false, 1⟩ :=
  scheduleReconnect_pending_noop ⟨some 2000, 4000, false, 1⟩ rfl

/-! ## Battle scene data model (`BattleScene.js`, V5 scene, lines 6-1105)

Snapshot payload shapes, as read by `_onStateUpdate` and its helpers. -/

/-- `casting: {skill_name, remaining}`. -/
structure Casting where
  skill_name : String
  remaining : ℚ
  deriving Repr, DecidableEq

/-- Fields of one entity object in a snapshot, as read by `_updateEntity`,
`_getEntityPosition` and `_getEntityPos`.  Absent JS fields are `none`. -/
structure EntInfo where
  id : Option String
  role : Option String
  type : Option String
  name : Option String
  hp : Option ℚ
  max_hp : Option ℚ
  alive : Option Bool
  casting : Option Casting
  deriving Repr, DecidableEq

/-- One element of an `adds` array: the entity fields plus the `id` used as
registry key (`adds[j].id`, BattleScene.js line 125). -/
structure AddEnt where
  id : String
  info : EntInfo
  deriving Repr, DecidableEq

/-- `data.boss`: entity fields plus `adds` and `current_target`. -/
structure BossEnt where
  info : EntInfo
  adds : Option (List AddEnt)
  current_target : Option String
  deriving Repr, DecidableEq

/-- `data.boss_card` (only its `casting` member is read by the V5 scene). -/
structure BossCard where
  casting : Option Casting
  deriving Repr, DecidableEq

/-- `entry.last_response` of an `ai_log` entry. -/
structure LastResponse where
  time : Option ℚ
  skill_name : Option String
  tool_name : Option String
  target : Option String
  deriving Repr, DecidableEq

/-- One `ai_log` entry. -/
structure AiEntry where
  is_boss : Bool
  role : Option String
  last_response : Option LastResponse
  deriving Repr, DecidableEq

/-- A `state_update` payload.  `characters` is a JS object; it is kept as an
association list in key-insertion order. -/
structure Snapshot where
  boss : Option BossEnt
  characters : Option (List (String × EntInfo))
  adds : Option (List AddEnt)
  boss_card : Option BossCard
  ai_log : Option (List AiEntry)
  deriving Repr, DecidableEq

/-- `(data.boss && data.boss.adds) || data.adds || []` (line 121).
An empty array is truthy in JS, so a present-but-empty `boss.adds` wins. -/
def addsOf (d : Snapshot) : List AddEnt :=
  match d.boss with
  | some b =>
      match b.adds with
      | some l => l
      | none => d.adds.getD []
  | none => d.adds.getD []

/-! ### Registry records

One record per entity id, owned by `_entities` / `_nameTexts` / `_hpBars`. -/

/-- A Phaser sprite as created and mutated by `_updateEntity`.  `tween`
records the target of the latest position tween driving the sprite. -/
@[ext] structure Sprite where
  x : Int
  y : Int
  texture : String
  scale : ℚ
  depth : Int
  tint : Option Int
  alpha : ℚ
  tween : Option (Int × Int)
  deriving Repr, DecidableEq

/-- The name label below a sprite. -/
@[ext] structure NameText where
  x : Int
  y : Int
  text : String
  bossStyle : Bool
  tween : Option (Int × Int)
  deriving Repr, DecidableEq

/-- An HP bar: background and fill rectangles (`_createHpBar`,
`_moveHpBar`, `_updateHpBar`). -/
@[ext] structure HpBar where
  isBoss : Bool
  barW : Int
  barH : Int
  offsetY : Int
  bgX : Int
  bgY : Int
  fillX : Int
  fillY : Int
  fillW : ℚ
  fillColor : Int
  bgAlpha : ℚ
  fillAlpha : ℚ
  bgTween : Option (Int × Int)
  fillTween : Option (Int × Int)
  deriving Repr, DecidableEq

/-- A floating cast text (`_showCastText`); the rendered label is
`'⏳ ' + skillName + remaining.toFixed(1) + 's'`, recorded here by its
content.  Style constants chosen at creation are summarized by
`bossStyle`. -/
@[ext] structure CastText where
  x : Int
  y : Int
  skillName : String
  remaining : ℚ
  bossStyle : Bool
  deriving Repr, DecidableEq

/-- An AI decision bubble (`_showAiBubble`). -/
@[ext] structure AiBubble where
  x : Int
  y : Int
  text : String
  bossStyle : Bool
  deriving Repr, DecidableEq

/-- An animation command (`animation` frame payload), as read by
`_onAnimation` and the choreographies. -/
structure AnimCmd where
  anim_type : String
  source_id : Option String
  target_id : Option String
  value : Option ℚ
  phase : Option String
  deriving Repr, DecidableEq

/-- Ghost log entry: a choreography was dispatched / its completion
continuation fired. -/
inductive AnimEvent where
  | start (c : AnimCmd)
  | finish (c : AnimCmd)
  deriving Repr, DecidableEq

/-- The mutable state of the V5 `BattleScene` (its `this._*` fields).
`animInFlight` and `animLog` are ghost fields recording which queued command
is currently playing and the history of dispatches and completions. -/
@[ext] structure SceneState where
  entities : String → Option Sprite
  hpBars : String → Option HpBar
  nameTexts : String → Option NameText
  lastState : Option Snapshot
  animQueue : List AnimCmd
  animPlaying : Bool
  aggroLine : Option ((Int × Int) × (Int × Int))
  castArc : Option ((Int × Int) × ℚ)
  aiBubbles : String → Option AiBubble
  castTexts : String → Option CastText
  gameOverOverlays : Nat
  animInFlight : Option AnimCmd
  animLog : List AnimEvent

/-- Pointwise map update (a JS property write / `delete`). -/
def updF {α : Type} (m : String → Option α) (k : String) (v : Option α) :
    String → Option α :=
  fun q => if q = k then v else m q

/-- The scene state right after `initialize`/`create`. -/
def battleSceneInit : SceneState :=
  { entities := fun _ => none, hpBars := fun _ => none, nameTexts := fun _ => none,
    lastState := none, animQueue := [], animPlaying := false,
    aggroLine := none, castArc := none,
    aiBubbles := fun _ => none, castTexts := fun _ => none,
    gameOverOverlays := 0, animInFlight := none, animLog := [] }

/-! ### Position calculation (`_getEntityPosition`, lines 531-575) -/

/-- The fixed character formation (`charPositions`). -/
def charPosOfRole (role : Option String) : Option (Int × Int) :=
  match role with
  | some "tank" => some (400, 210)
  | some "healer" => some (530, 110)
  | some "mage" => some (620, 180)
  | some "rogue" => some (530, 310)
  | some "hunter" => some (620, 260)
  | _ => none

/-- `parseInt(id.replace(/\D/g, ''), 10) || 0`: the digits of the id read as
a number, `0` when there are none. -/
def addIndexOf (id : String) : Nat :=
  (String.toNat? (String.mk (id.toList.filter Char.isDigit))).getD 0

/-- The semicircle of fixed add positions. -/
def addPositions : List (Int × Int) :=
  [(60, 120), (200, 100), (60, 300), (200, 320), (40, 210), (230, 210)]

/-- The `add_`-prefix and fallback part of `_getEntityPosition`
(lines 553-574), reached when the role does not match the formation. -/
def addOrDefaultPos (id : String) : Int × Int :=
  if id.startsWith "add_" then
    let idx := addIndexOf id
    if idx < addPositions.length then addPositions.getD idx (400, 210)
    else (60 + ((idx : Int) % 3) * 80, 100 + ((idx : Int) / 3) * 110)
  else (400, 210)

/-- `_getEntityPosition(id, info, isBoss)`. -/
def getEntityPosition (id : String) (info : EntInfo) (isBoss : Bool) :
    Int × Int :=
  if isBoss then (140, 210)
  else
    match charPosOfRole (jsOrS info.role info.type) with
    | some p => p
    | none => addOrDefaultPos id

/-- The body of `_getEntityPos`'s character scan hit
(`_getEntityPosition(entityId, c, false)` at line 1051/1057), where
`entityId` may be `undefined` when the scan matched on `c.id === entityId`
with both sides `undefined`.  In that case, if the role does not match the
formation either, the source throws a `TypeError`
(`undefined.indexOf('add_')`); the branch is modelled as `none` and is
unreachable under the hypotheses used by the theorems below, which require
the queried id to be present. -/
def posForScanHit (entityId : Option String) (c : EntInfo) :
    Option (Int × Int) :=
  match charPosOfRole (jsOrS c.role c.type) with
  | some p => some p
  | none =>
      match entityId with
      | some id => some (addOrDefaultPos id)
      | none => none

/-- The `_lastState` fallback of `_getEntityPos` (lines 1044-1062).
`chars[entityId]` with an `undefined` key is a miss. -/
def getEntityPosFallback (st : SceneState) (entityId : Option String) :
    Option (Int × Int) :=
  match st.lastState with
  | none => none
  | some ls =>
      if entityId = some "boss" ∧ ls.boss.isSome then some (140, 210)
      else
        match ls.characters with
        | none => none
        | some chars =>
            match (match entityId with
                   | some k => (chars.find? (fun (kc : String × EntInfo) => kc.1 == k)).map Prod.snd
                   | none => none) with
            | some c => some (getEntityPosition ((entityId).getD "") c false)
            | none =>
                match chars.find? (fun (kc : String × EntInfo) => kc.2.id == entityId) with
                | some kc => posForScanHit entityId kc.2
                | none => none

/-- `_getEntityPos(entityId)` (lines 1040-1063): sprite position if the
registry knows the id, else the `_lastState` fallback. -/
def getEntityPos (st : SceneState) (entityId : Option String) :
    Option (Int × Int) :=
  match entityId.bind st.entities with
  | some s => some (s.x, s.y)
  | none => getEntityPosFallback st entityId

/-! ### Entity create/update (`_updateEntity`, lines 161-223) -/

/-- `_getTextureKey` (lines 518-529). -/
def textureKeyOf (role : Option String) (isBoss : Bool) : String :=
  if isBoss then "boss"
  else
    match role with
    | some "tank" => "tank"
    | some "healer" => "healer"
    | some "mage" => "mage"
    | some "rogue" => "rogue"
    | some "hunter" => "hunter"
    | some "minion" => "minion"
    | _ => "minion"

/-- One `_updateEntity(id, info, isBoss)` call, as data. -/
structure Upd where
  id : String
  info : EntInfo
  isBoss : Bool
  deriving Repr, DecidableEq

/-- The position the update drives the entity to. -/
def Upd.pos (u : Upd) : Int × Int :=
  getEntityPosition u.id u.info u.isBoss

/-- The bundle of the three per-id records `_updateEntity` works on. -/
@[ext] structure EntRec where
  sprite : Sprite
  nt : Option NameText
  hb : Option HpBar
  deriving Repr, DecidableEq

/-- Sprite creation (lines 168-172). -/
def mkSprite (pos : Int × Int) (texture : String) (isBoss : Bool) : Sprite :=
  { x := pos.1, y := pos.2, texture := texture,
    scale := if isBoss then 2 else 3 / 2, depth := 3,
    tint := none, alpha := 1, tween := none }

/-- Name label creation (lines 175-183): text `info.name || id`, placed
below the sprite. -/
def mkNameText (pos : Int × Int) (isBoss : Bool) (txt : String) : NameText :=
  { x := pos.1, y := pos.2 + (if isBoss then 50 else 30), text := txt,
    bossStyle := isBoss, tween := none }

/-- `_createHpBar` (lines 226-244). -/
def mkHpBar (pos : Int × Int) (isBoss : Bool) : HpBar :=
  let barW : Int := if isBoss then 60 else 36
  let barH : Int := if isBoss then 6 else 4
  let offsetY : Int := if isBoss then -45 else -25
  { isBoss := isBoss, barW := barW, barH := barH, offsetY := offsetY,
    bgX := pos.1, bgY := pos.2 + offsetY,
    fillX := pos.1 - barW / 2, fillY := pos.2 + offsetY,
    fillW := (barW : ℚ),
    fillColor := if isBoss then 0xcc2222 else 0x33cc33,
    bgAlpha := 1, fillAlpha := 1, bgTween := none, fillTween := none }

/-- The creation branch of `_updateEntity` (lines 167-187). -/
def createEntRec (u : Upd) : EntRec :=
  { sprite := mkSprite u.pos (textureKeyOf (jsOrS u.info.role u.info.type) u.isBoss) u.isBoss,
    nt := some (mkNameText u.pos u.isBoss ((jsOrS u.info.name (some u.id)).getD u.id)),
    hb := some (mkHpBar u.pos u.isBoss) }

/-- `_moveHpBar` (lines 246-264): tween both rectangles towards the new
anchor. -/
def moveHpBarRec (pos : Int × Int) (hb : HpBar) : HpBar :=
  { hb with bgTween := some (pos.1, pos.2 + hb.offsetY),
            fillTween := some (pos.1 - hb.barW / 2, pos.2 + hb.offsetY) }

/-- `info.max_hp || 1` (line 269): JS `0` is falsy. -/
def maxHpOf (info : EntInfo) : ℚ :=
  match info.max_hp with
  | some m => if m = 0 then 1 else m
  | none => 1

/-- `info.hp || 0` (line 270). -/
def hpOf (info : EntInfo) : ℚ :=
  match info.hp with
  | some h => h
  | none => 0

/-- `Math.max(0, Math.min(1, hp / maxHp))` (line 271). -/
def pctOf (info : EntInfo) : ℚ :=
  max 0 (min 1 (hpOf info / maxHpOf info))

/-- The player HP-bar color thresholds (lines 277-283). -/
def playerBarColor (info : EntInfo) : Int :=
  if 3 / 5 < pctOf info then 0x33cc33
  else if 3 / 10 < pctOf info then 0xcccc33
  else 0xcc3333

/-- The dead-entity bar translucency (lines 287-293). -/
def barAlphaOf (info : EntInfo) : ℚ :=
  if hpOf info ≤ 0 then 3 / 10 else 1

/-- `_updateHpBar` (lines 266-294): recompute fill width, player bar color
and the dead-entity translucency.  `max_hp || 1` and `hp || 0` follow JS
truthiness (`0` is falsy). -/
def updateHpBarFill (u : Upd) (hb : HpBar) : HpBar :=
  { hb with fillW := max 0 (hb.barW * pctOf u.info),
            fillColor := if u.isBoss then hb.fillColor else playerBarColor u.info,
            bgAlpha := barAlphaOf u.info, fillAlpha := barAlphaOf u.info }

/-- The death-state test (line 216):
`info.hp !== undefined && info.hp <= 0 && info.alive === false`. -/
def deathCheck (info : EntInfo) : Bool :=
  match info.hp with
  | some h => decide (h ≤ 0) && (info.alive == some false)
  | none => false

/-- The `> 2px` movement test of `_updateEntity` (line 190), against the
sprite position `xy` (which `_updateEntity` never writes after creation). -/
def farTest (xy : Int × Int) (u : Upd) : Bool :=
  2 < (xy.1 - u.pos.1).natAbs || 2 < (xy.2 - u.pos.2).natAbs

/-- The sprite part of the update half of `_updateEntity`: the position
tween (lines 190-197) and the death tint (lines 215-222). -/
def coreSprite (u : Upd) (far : Bool) (s : Sprite) : Sprite :=
  let s1 := if far then { s with tween := some u.pos } else s
  if deathCheck u.info then { s1 with tint := some 0x444444, alpha := 1 / 2 }
  else { s1 with tint := none, alpha := 1 }

/-- The name-label part: its tween (lines 198-207). -/
def coreNt (u : Upd) (far : Bool) (t : NameText) : NameText :=
  if far then
    { t with tween := some (u.pos.1, u.pos.2 + (if u.isBoss then 50 else 30)) }
  else t

/-- The HP-bar part: `_moveHpBar` in the far branch (line 209) followed by
the unconditional `_updateHpBar` (line 213). -/
def coreHb (u : Upd) (far : Bool) (hb : HpBar) : HpBar :=
  updateHpBarFill u (if far then moveHpBarRec u.pos hb else hb)

/-- The update part of `_updateEntity` (lines 189-222), run on every call
after the optional creation: position tweens when the target moved more
than 2px, HP bar refresh, death tint.  The guards `var nt = ...; if (nt)`
and the `if (!hb) return`s are the `Option.map`s. -/
def coreU (u : Upd) (r : EntRec) : EntRec :=
  let far := farTest (r.sprite.x, r.sprite.y) u
  { sprite := coreSprite u far r.sprite,
    nt := r.nt.map (coreNt u far),
    hb := r.hb.map (coreHb u far) }

/-- One `_updateEntity` call on the per-id record bundle: create when the
sprite is unknown, then run the common update part. -/
def applyOne (u : Upd) (r : Option EntRec) : EntRec :=
  coreU u (match r with
           | some r0 => r0
           | none => createEntRec u)

/-- A sequence of `_updateEntity` calls on one id's records. -/
def applyUpds (L : List Upd) (r : Option EntRec) : Option EntRec :=
  L.foldl (fun acc u => some (applyOne u acc)) r

/-- The three registry entries for one id, bundled (present iff the sprite
is registered, as in the source's `if (!sprite)` test). -/
def recAt (st : SceneState) (id : String) : Option EntRec :=
  (st.entities id).map (fun s => EntRec.mk s (st.nameTexts id) (st.hpBars id))

/-- `_updateEntity(id, info, isBoss)` on the scene state. -/
def updateEntity (st : SceneState) (id : String) (info : EntInfo)
    (isBoss : Bool) : SceneState :=
  let u : Upd := ⟨id, info, isBoss⟩
  let r2 := applyOne u (recAt st id)
  { st with entities := updF st.entities id (some r2.sprite),
            nameTexts := updF st.nameTexts id r2.nt,
            hpBars := updF st.hpBars id r2.hb }

/-! ### Reconciliation (`_onStateUpdate`, lines 101-159) -/

/-- The sequence of `_updateEntity` calls one `_onStateUpdate(d)` performs:
the boss (line 106), the characters in key order (lines 111-118), then the
alive adds in array order (lines 123-128). -/
def updListOf (d : Snapshot) : List Upd :=
  (match d.boss with
   | some b => [⟨"boss", b.info, true⟩]
   | none => [])
  ++ (match d.characters with
      | some chars => chars.map (fun kc => ⟨kc.1, kc.2, false⟩)
      | none => [])
  ++ (addsOf d).filterMap (fun a =>
        if a.info.alive == some true then some (⟨a.id, a.info, false⟩ : Upd)
        else none)

/-- The create/update half of `_onStateUpdate`. -/
def entityPhase (d : Snapshot) (st : SceneState) : SceneState :=
  (updListOf d).foldl (fun s u => updateEntity s u.id u.info u.isBoss) st

/-- The set of add ids seen alive in this snapshot (`aliveAddIds`,
lines 122-127). -/
def aliveAddIds (d : Snapshot) : List String :=
  (addsOf d).filterMap (fun a =>
    if a.info.alive == some true then some a.id else none)

/-- The dead-add cleanup loop (lines 129-142): every registered id with
prefix `add_` that is not alive in this snapshot loses its sprite, name
text and HP bar; the latter two are deleted while walking the sprite keys,
so only ids that currently have a sprite are touched. -/
def removalPhase (d : Snapshot) (st : SceneState) : SceneState :=
  let alive := aliveAddIds d
  { st with
    entities := fun id =>
      if id.startsWith "add_" && !(alive.contains id) then none
      else st.entities id,
    nameTexts := fun id =>
      if id.startsWith "add_" && !(alive.contains id) && (st.entities id).isSome
      then none else st.nameTexts id,
    hpBars := fun id =>
      if id.startsWith "add_" && !(alive.contains id) && (st.entities id).isSome
      then none else st.hpBars id }

/-- `_updateAggroLine` (lines 297-322): the dashed line is cleared and, when
the boss has a (truthy) `current_target` and both endpoints resolve to
positions, redrawn between them; the drawn geometry is determined by the
endpoint pair recorded here. -/
def aggroValue (d : Snapshot) (st : SceneState) :
    Option ((Int × Int) × (Int × Int)) :=
  match d.boss with
  | none => none
  | some b =>
      if jsTruthyS b.current_target then
        match getEntityPos st (some "boss"), getEntityPos st b.current_target with
        | some bp, some tp => some (bp, tp)
        | _, _ => none
      else none

def updateAggroLine (d : Snapshot) (st : SceneState) : SceneState :=
  { st with aggroLine := aggroValue d st }

/-- `_updateCastArc` (lines 324-348): progress ring around the boss while
`boss_card.casting` is present; progress `1 - remaining / totalCast`
clamped below by the arc starting at zero sweep. -/
def castArcValue (d : Snapshot) (st : SceneState) :
    Option ((Int × Int) × ℚ) :=
  match d.boss_card with
  | none => none
  | some bc =>
      match bc.casting with
      | none => none
      | some cast =>
          match getEntityPos st (some "boss") with
          | none => none
          | some bp =>
              let totalCast : ℚ := if cast.skill_name = "灭世之炎" then 10 else 2
              some (bp, max 0 (1 - cast.remaining / totalCast))

def updateCastArc (d : Snapshot) (st : SceneState) : SceneState :=
  { st with castArc := castArcValue d st }

/-- `_showCastText` (lines 423-446): update text and position of an
existing cast text (style kept from creation), or create one; a missing
position keeps everything untouched. -/
def showCastText (st : SceneState) (entityId : String) (skillName : String)
    (remaining : ℚ) (isBoss : Bool) : SceneState :=
  match getEntityPos st (some entityId) with
  | none => st
  | some pos =>
      let yOff : Int := if isBoss then -60 else -42
      let txt : CastText :=
        match st.castTexts entityId with
        | some t => { t with x := pos.1, y := pos.2 + yOff,
                             skillName := skillName, remaining := remaining }
        | none => { x := pos.1, y := pos.2 + yOff, skillName := skillName,
                    remaining := remaining, bossStyle := isBoss }
      { st with castTexts := updF st.castTexts entityId (some txt) }

/-- `_hideCastText` (lines 448-453). -/
def hideCastText (st : SceneState) (entityId : String) : SceneState :=
  { st with castTexts := updF st.castTexts entityId none }

/-- The per-character step of `_updateAllCastTexts` (lines 410-420). -/
def castTextCharStep (st : SceneState) (kc : String × EntInfo) : SceneState :=
  match kc.2.casting with
  | some c => showCastText st kc.1 c.skill_name c.remaining false
  | none => hideCastText st kc.1

/-- `_updateAllCastTexts` (lines 399-421): boss cast text from
`boss_card.casting`, then one show/hide per character key. -/
def updateAllCastTexts (d : Snapshot) (st : SceneState) : SceneState :=
  let st1 :=
    match d.boss_card with
    | some bc =>
        match bc.casting with
        | some c => showCastText st "boss" c.skill_name c.remaining true
        | none => hideCastText st "boss"
    | none => hideCastText st "boss"
  match d.characters with
  | none => st1
  | some chars => chars.foldl castTextCharStep st1

/-- `this._targetNames[t] || t` (lines 26-29, 479). -/
def targetNameOf (t : String) : String :=
  match t with
  | "boss" => "Boss"
  | "tank" => "坦克"
  | "healer" => "治疗"
  | "mage" => "法师"
  | "rogue" => "盗贼"
  | "hunter" => "猎人"
  | _ => t

/-- `entry.is_boss ? 'boss' : (entry.role || '')` (line 467). -/
def bubbleEntryId (entry : AiEntry) : String :=
  if entry.is_boss then "boss" else (jsOrS entry.role (some "")).getD ""

/-- `resp.skill_name || resp.tool_name` with the target arrow appended
(lines 474-480). -/
def bubbleDisplayText (resp : LastResponse) : String :=
  match jsOrS resp.skill_name resp.tool_name with
  | some sk =>
      if sk = "" then ""
      else sk ++ (if jsTruthyS resp.target then
                    "→" ++ targetNameOf (resp.target.getD "")
                  else "")
  | none => ""

/-- `displayText || '💭'` (line 487). -/
def bubbleTextOf (resp : LastResponse) : String :=
  if bubbleDisplayText resp = "" then "💭" else bubbleDisplayText resp

/-- The bubble one entry would show, when every guard except the
bubble-already-present check passes: `last_response` with a truthy `time`,
at most 3 s old, a non-empty entity id and a resolvable position
(lines 460-482, 486-497). -/
def bubbleValue (st : SceneState) (now : ℚ) (entry : AiEntry) :
    Option AiBubble :=
  match entry.last_response with
  | none => none
  | some resp =>
      match resp.time with
      | none => none
      | some t =>
          if t = 0 then none
          else if 3 < now - t then none
          else if bubbleEntryId entry = "" then none
          else
            match getEntityPos st (some (bubbleEntryId entry)) with
            | none => none
            | some pos =>
                some { x := pos.1,
                       y := pos.2 + (if entry.is_boss then -75 else -55),
                       text := bubbleTextOf resp, bossStyle := entry.is_boss }

/-- One iteration of the `_updateAiBubbles` loop (lines 460-483) followed by
`_showAiBubble` (lines 486-516): show the entry's bubble unless one is
already on screen for that entity. -/
def bubbleStep (now : ℚ) (st : SceneState) (entry : AiEntry) : SceneState :=
  match bubbleValue st now entry with
  | none => st
  | some b =>
      if (st.aiBubbles (bubbleEntryId entry)).isSome then st
      else { st with aiBubbles := updF st.aiBubbles (bubbleEntryId entry) (some b) }

/-- `_updateAiBubbles` (lines 456-484); `now` is `Date.now() / 1000` in
seconds. -/
def updateAiBubbles (now : ℚ) (d : Snapshot) (st : SceneState) : SceneState :=
  match d.ai_log with
  | none => st
  | some entries => entries.foldl (bubbleStep now) st

/-- `_onStateUpdate(data)` (lines 101-159): remember the snapshot, run the
entity create/update calls, clean up dead adds, then recompute the derived
views.  The trailing Phaser `state_changed` events touch no scene state. -/
def onStateUpdate (now : ℚ) (st : SceneState) (data : Option Snapshot) :
    SceneState :=
  match data with
  | none => st
  | some d =>
      updateAiBubbles now d
        (updateAllCastTexts d
          (updateCastArc d
            (updateAggroLine d
              (removalPhase d
                (entityPhase d { st with lastState := some d })))))

/-- `_onGameReset` (lines 351-397): destroy every overlay, entity record and
derived view, clear the animation queue and force the sequencer idle.  The
ghost history `animLog` is retained; the abandoned in-flight bookkeeping is
dropped. -/
def onGameReset (st : SceneState) : SceneState :=
  { entities := fun _ => none, hpBars := fun _ => none,
    nameTexts := fun _ => none,
    lastState := none, animQueue := [], animPlaying := false,
    aggroLine := none, castArc := none,
    aiBubbles := fun _ => none, castTexts := fun _ => none,
    gameOverOverlays := 0, animInFlight := none, animLog := st.animLog }

/-! ## Animation sequencer (`_onAnimation` / `_processAnimQueue`,
lines 577-639, and the choreographies, lines 641-998)

Each choreography either calls its completion continuation `done`
synchronously (guard clauses for unresolvable entities, the number-only
kinds, and the `default` branch) or starts tweens and calls `done` from a
tween-completion callback later.  `choreoSync` is the per-kind synchronous
test, one line per choreography guard. -/

/-- Does the choreography selected by the switch at lines 594-638 call
`done` before returning?
* `fireball` (642-645), `arrow` (827-830): `if (!from || !to) done()`;
* `heal` (668-670), `poison` (945-947): `if (!pos) done()` on the target;
* `backstab` (729-732): `if (!src || !to) done()` with
  `src = this._entities[anim.source_id]`;
* `taunt` (775-777): `if (!pos) done()` on the source;
* `boss_attack` (799-802): `if (!from || !to) done()` with
  `from = this._getEntityPos('boss')`;
* `shield` (977-979): `if (!pos) done()` on `source_id || target_id`;
* `death` (885-887): `if (!sprite) done()` on the target's registry sprite;
* `damage`, `heal_number` (616-623): `done()` right after the number pops;
* `blizzard` (696) and `phase_change` (854) never resolve entities and
  always play; `default` (636-637) calls `done()` at once. -/
def choreoSync (st : SceneState) (c : AnimCmd) : Bool :=
  match c.anim_type with
  | "fireball" =>
      (getEntityPos st c.source_id).isNone || (getEntityPos st c.target_id).isNone
  | "heal" => (getEntityPos st c.target_id).isNone
  | "blizzard" => false
  | "backstab" =>
      (c.source_id.bind st.entities).isNone || (getEntityPos st c.target_id).isNone
  | "taunt" => (getEntityPos st c.source_id).isNone
  | "boss_attack" =>
      (getEntityPos st (some "boss")).isNone || (getEntityPos st c.target_id).isNone
  | "arrow" =>
      (getEntityPos st c.source_id).isNone || (getEntityPos st c.target_id).isNone
  | "damage" => true
  | "heal_number" => true
  | "phase_change" => false
  | "death" => (c.target_id.bind st.entities).isNone
  | "poison" => (getEntityPos st c.target_id).isNone
  | "shield" => (getEntityPos st (jsOrS c.source_id c.target_id)).isNone
  | _ => true

/-- The `anim_type` strings with a registered case in the switch. -/
def knownAnimKinds : List String :=
  ["fireball", "heal", "blizzard", "backstab", "taunt", "boss_attack",
   "arrow", "damage", "heal_number", "phase_change", "death", "poison",
   "shield"]

/-- `_processAnimQueue` (lines 584-639), with explicit fuel so that the
recursion (through the synchronous `done` continuation at lines 589-592) is
structural.  The fuel equals the queue length at entry, which the recursion
consumes one command per step. -/
def paqF : Nat → SceneState → SceneState
  | 0, st => st
  | Nat.succ n, st =>
      if st.animPlaying then st
      else
        match st.animQueue with
        | [] => st
        | c :: rest =>
            let st1 : SceneState :=
              { st with animQueue := rest, animPlaying := true,
                        animLog := st.animLog ++ [AnimEvent.start c] }
            if choreoSync st c then
              paqF n { st1 with animPlaying := false,
                                animLog := st1.animLog ++ [AnimEvent.finish c] }
            else
              { st1 with animInFlight := some c }

/-- `_processAnimQueue()`. -/
def processAnimQueue (st : SceneState) : SceneState :=
  paqF st.animQueue.length st

/-- The single-use completion continuation `done` (lines 589-592) firing for
the in-flight choreography: `_animPlaying = false; _processAnimQueue()`. -/
def animDone (st : SceneState) : SceneState :=
  match st.animInFlight with
  | none => st
  | some c =>
      processAnimQueue
        { st with animPlaying := false, animInFlight := none,
                  animLog := st.animLog ++ [AnimEvent.finish c] }

/-- `_onAnimation(data)` (lines 578-582): drop falsy frames, enqueue, drain. -/
def onAnimation (st : SceneState) (data : Option AnimCmd) : SceneState :=
  match data with
  | none => st
  | some c =>
      if c.anim_type = "" then st
      else processAnimQueue { st with animQueue := st.animQueue ++ [c] }

/-- One external stimulus delivered to the scene: an `animation` frame, the
completion of the in-flight choreography's tweens, or a `state_update`
frame. -/
inductive ClientInput where
  | frameAnimation (data : Option AnimCmd)
  | choreoComplete
  | frameStateUpdate (now : ℚ) (data : Option Snapshot)

/-- Dispatch of one stimulus. -/
def clientStep (st : SceneState) : ClientInput → SceneState
  | ClientInput.frameAnimation d => onAnimation st d
  | ClientInput.choreoComplete => animDone st
  | ClientInput.frameStateUpdate now d => onStateUpdate now st d

/-- Run a stimulus sequence from the freshly created scene. -/
def runClient (inputs : List ClientInput) : SceneState :=
  inputs.foldl clientStep battleSceneInit

/-- The animation commands actually accepted into the queue, in arrival
order. -/
def arrivalsOf (inputs : List ClientInput) : List AnimCmd :=
  inputs.filterMap (fun i =>
    match i with
    | ClientInput.frameAnimation (some c) =>
        if c.anim_type = "" then none else some c
    | _ => none)

/-- The dispatched commands of a ghost log, in dispatch order. -/
def startsOf (log : List AnimEvent) : List AnimCmd :=
  log.filterMap (fun e =>
    match e with
    | AnimEvent.start c => some c
    | AnimEvent.finish _ => none)

/-- Automaton consuming the ghost log: `some none` between commands,
`some (some c)` while `c` plays, `none` once the log violates the
dispatch/complete alternation. -/
def logStep (acc : Option (Option AnimCmd)) (e : AnimEvent) :
    Option (Option AnimCmd) :=
  match acc, e with
  | some none, AnimEvent.start c => some (some c)
  | some (some c), AnimEvent.finish c2 => if c = c2 then some none else none
  | _, _ => none

/-- The alternation state of a whole ghost log. -/
def logState (log : List AnimEvent) : Option (Option AnimCmd) :=
  log.foldl logStep (some none)

/-- The sequencer invariant tying the ghost log to the live fields. -/
def SeqInv (arr : List AnimCmd) (st : SceneState) : Prop :=
  logState st.animLog = some st.animInFlight ∧
  st.animPlaying = st.animInFlight.isSome ∧
  arr = startsOf st.animLog ++ st.animQueue

/-! ### Sequencer lemmas -/

/-- The animation-subsystem fields of the scene. -/
def animView (st : SceneState) :
    List AnimCmd × Bool × Option AnimCmd × List AnimEvent :=
  (st.animQueue, st.animPlaying, st.animInFlight, st.animLog)

lemma animView_foldl {β : Type} (f : SceneState → β → SceneState)
    (hf : ∀ s x, animView (f s x) = animView s) :
    ∀ (l : List β) (st : SceneState), animView (l.foldl f st) = animView st := by
  intro l
  induction l with
  | nil => intro st; rfl
  | cons x t ih =>
      intro st
      simp only [List.foldl_cons]
      rw [ih, hf]

lemma animView_updateEntity (st : SceneState) (id : String) (info : EntInfo)
    (isBoss : Bool) : animView (updateEntity st id info isBoss) = animView st := rfl

lemma animView_showCastText (st : SceneState) (e sk : String) (r : ℚ)
    (b : Bool) : animView (showCastText st e sk r b) = animView st := by
  unfold showCastText
  cases getEntityPos st (some e) <;> rfl

lemma animView_castTextCharStep (st : SceneState) (kc : String × EntInfo) :
    animView (castTextCharStep st kc) = animView st := by
  unfold castTextCharStep
  cases kc.2.casting
  · rfl
  · apply animView_showCastText


lemma animView_bubbleStep (now : ℚ) (st : SceneState) (entry : AiEntry) :
    animView (bubbleStep now st entry) = animView st := by
  unfold bubbleStep
  repeat' (first | split | dsimp only)
  all_goals rfl

lemma animView_onStateUpdate (now : ℚ) (st : SceneState)
    (d : Option Snapshot) : animView (onStateUpdate now st d) = animView st := by
  rcases d with _ | d
  · rfl
  show animView (updateAiBubbles now d (updateAllCastTexts d (updateCastArc d
      (updateAggroLine d (removalPhase d
        (entityPhase d { st with lastState := some d })))))) = animView st
  have h1 : ∀ s, animView (updateAiBubbles now d s) = animView s := by
    intro s
    unfold updateAiBubbles
    cases d.ai_log
    · rfl
    · exact animView_foldl _ (fun s e => animView_bubbleStep now s e) _ s
  have h2 : ∀ s, animView (updateAllCastTexts d s) = animView s := by
    intro s
    unfold updateAllCastTexts
    have hboss : ∀ s' : SceneState, animView
        (match d.boss_card with
         | some bc =>
             match bc.casting with
             | some c => showCastText s' "boss" c.skill_name c.remaining true
             | none => hideCastText s' "boss"
         | none => hideCastText s' "boss") = animView s' := by
      intro s'
      rcases d.boss_card with _ | bc
      · rfl
      dsimp only
      rcases bc.casting with _ | c
      · rfl
      · apply animView_showCastText
    cases d.characters
    · exact hboss s
    · rw [animView_foldl _ animView_castTextCharStep, hboss]
  have h3 : ∀ s, animView (entityPhase d s) = animView s := by
    intro s
    unfold entityPhase
    exact animView_foldl (fun (s : SceneState) (u : Upd) => updateEntity s u.id u.info u.isBoss)
      (fun s u => animView_updateEntity s u.id u.info u.isBoss) (updListOf d) s
  have h4 : ∀ s, animView (updateCastArc d s) = animView s := by
    intro s; simp only [updateCastArc, animView]
  have h5 : ∀ s, animView (updateAggroLine d s) = animView s := by
    intro s; simp only [updateAggroLine, animView]
  have h6 : ∀ s, animView (removalPhase d s) = animView s := by
    intro s; simp only [removalPhase, animView]
  rw [h1, h2, h4, h5, h6, h3]
  rfl

lemma logState_append (l : List AnimEvent) (e : AnimEvent) :
    logState (l ++ [e]) = logStep (logState l) e := by
  simp [logState, List.foldl_append]

lemma startsOf_append (l1 l2 : List AnimEvent) :
    startsOf (l1 ++ l2) = startsOf l1 ++ startsOf l2 := by
  simp [startsOf]

lemma SeqInv_of_animView_eq {arr : List AnimCmd} {s s' : SceneState}
    (h : animView s' = animView s) (hi : SeqInv arr s) : SeqInv arr s' := by
  obtain ⟨hq, hp, hf, hl⟩ : s'.animQueue = s.animQueue ∧
      s'.animPlaying = s.animPlaying ∧
      s'.animInFlight = s.animInFlight ∧ s'.animLog = s.animLog := by
    simpa [animView, Prod.ext_iff] using h
  obtain ⟨h1, h2, h3⟩ := hi
  exact ⟨by rw [hl, hf]; exact h1, by rw [hp, hf]; exact h2, by rw [hl, hq]; exact h3⟩

lemma paqF_succ_playing (n : Nat) (st : SceneState)
    (h : st.animPlaying = true) : paqF (n + 1) st = st := by
  simp [paqF, h]

lemma paqF_succ_nil (n : Nat) (st : SceneState) (h : st.animPlaying = false)
    (hq : st.animQueue = []) : paqF (n + 1) st = st := by
  simp [paqF, h, hq]

lemma paqF_succ_sync (n : Nat) (st : SceneState) (c : AnimCmd)
    (rest : List AnimCmd) (h : st.animPlaying = false)
    (hq : st.animQueue = c :: rest) (hs : choreoSync st c = true) :
    paqF (n + 1) st =
      paqF n { st with animQueue := rest, animPlaying := false,
                       animLog := st.animLog ++ [AnimEvent.start c, AnimEvent.finish c] } := by
  simp [paqF, h, hq, hs]

lemma paqF_succ_async (n : Nat) (st : SceneState) (c : AnimCmd)
    (rest : List AnimCmd) (h : st.animPlaying = false)
    (hq : st.animQueue = c :: rest) (hs : choreoSync st c = false) :
    paqF (n + 1) st =
      { st with animQueue := rest, animPlaying := true,
                animLog := st.animLog ++ [AnimEvent.start c],
                animInFlight := some c } := by
  simp [paqF, h, hq, hs]

/-- `_processAnimQueue` preserves the sequencer invariant. -/
lemma paqF_inv : ∀ (n : Nat) (st : SceneState) (arr : List AnimCmd),
    logState st.animLog = some st.animInFlight →
    st.animPlaying = st.animInFlight.isSome →
    arr = startsOf st.animLog ++ st.animQueue →
    SeqInv arr (paqF n st) := by
  intro n
  induction n with
  | zero => intro st arr h1 h2 h3; exact ⟨h1, h2, h3⟩
  | succ n ih =>
      intro st arr h1 h2 h3
      by_cases hp : st.animPlaying = true
      · rw [paqF_succ_playing n st hp]; exact ⟨h1, h2, h3⟩
      · have hpf : st.animPlaying = false := by simpa using hp
        have hfl : st.animInFlight = none := by
          rcases hfl : st.animInFlight with _ | c
          · rfl
          · rw [hpf, hfl] at h2; simp at h2
        cases hq : st.animQueue with
        | nil => rw [paqF_succ_nil n st hpf hq]; exact ⟨h1, h2, h3⟩
        | cons c rest =>
            by_cases hs : choreoSync st c = true
            · rw [paqF_succ_sync n st c rest hpf hq hs]
              refine ih _ arr ?_ ?_ ?_
              · dsimp only
                rw [show st.animLog ++ [AnimEvent.start c, AnimEvent.finish c]
                      = (st.animLog ++ [AnimEvent.start c]) ++ [AnimEvent.finish c] by
                    simp]
                rw [logState_append, logState_append, h1, hfl]
                simp [logStep]
              · dsimp only
                rw [hfl]
                rfl
              · dsimp only
                rw [startsOf_append, h3, hq]
                simp [startsOf]
            · have hsf : choreoSync st c = false := by simpa using hs
              rw [paqF_succ_async n st c rest hpf hq hsf]
              refine ⟨?_, rfl, ?_⟩
              · dsimp only
                rw [logState_append, h1, hfl]
                rfl
              · dsimp only
                rw [startsOf_append, h3, hq]
                simp [startsOf]

/-- The invariant is preserved along any stimulus sequence. -/
lemma runClient_inv_aux :
    ∀ (inputs : List ClientInput) (st : SceneState) (arr : List AnimCmd),
      SeqInv arr st →
      SeqInv (arr ++ arrivalsOf inputs) (inputs.foldl clientStep st) := by
  intro inputs
  induction inputs with
  | nil => intro st arr h; simpa [arrivalsOf] using h
  | cons i rest ih =>
      intro st arr h
      obtain ⟨h1, h2, h3⟩ := h
      simp only [List.foldl_cons]
      rcases i with d | _ | ⟨now, d⟩
      · rcases d with _ | c
        · have : arrivalsOf (ClientInput.frameAnimation none :: rest) = arrivalsOf rest := by
            simp [arrivalsOf]
          rw [this]
          exact ih st arr ⟨h1, h2, h3⟩
        · by_cases hc : c.anim_type = ""
          · have : arrivalsOf (ClientInput.frameAnimation (some c) :: rest) = arrivalsOf rest := by
              simp [arrivalsOf, hc]
            rw [this]
            have hstep : clientStep st (ClientInput.frameAnimation (some c)) = st := by
              simp [clientStep, onAnimation, hc]
            rw [hstep]
            exact ih st arr ⟨h1, h2, h3⟩
          · have harr : arrivalsOf (ClientInput.frameAnimation (some c) :: rest)
                = [c] ++ arrivalsOf rest := by
              simp [arrivalsOf, hc]
            have hstep : clientStep st (ClientInput.frameAnimation (some c)) =
                processAnimQueue { st with animQueue := st.animQueue ++ [c] } := by
              simp [clientStep, onAnimation, hc]
            rw [harr, hstep]
            have hinv : SeqInv (arr ++ [c])
                (processAnimQueue { st with animQueue := st.animQueue ++ [c] }) := by
              rw [processAnimQueue]
              apply paqF_inv
              · exact h1
              · exact h2
              · rw [h3]; simp
            have := ih _ _ hinv
            simpa [List.append_assoc] using this
      · have harr : arrivalsOf (ClientInput.choreoComplete :: rest) = arrivalsOf rest := by
          simp [arrivalsOf]
        rw [harr]
        rcases hfl : st.animInFlight with _ | c
        · have hstep : clientStep st ClientInput.choreoComplete = st := by
            simp [clientStep, animDone, hfl]
          rw [hstep]
          exact ih st arr ⟨h1, h2, h3⟩
        · have hstep : clientStep st ClientInput.choreoComplete = processAnimQueue
              { st with animPlaying := false, animInFlight := none,
                        animLog := st.animLog ++ [AnimEvent.finish c] } := by
            simp [clientStep, animDone, hfl]
          rw [hstep]
          have hinv : SeqInv arr (processAnimQueue
              { st with animPlaying := false, animInFlight := none,
                        animLog := st.animLog ++ [AnimEvent.finish c] }) := by
            rw [processAnimQueue]
            apply paqF_inv
            · show logState (st.animLog ++ [AnimEvent.finish c]) = some none
              rw [logState_append, h1, hfl]
              simp [logStep]
            · rfl
            · show arr = startsOf (st.animLog ++ [AnimEvent.finish c]) ++ st.animQueue
              rw [startsOf_append, h3]
              simp [startsOf]
          exact ih _ _ hinv
      · have harr : arrivalsOf (ClientInput.frameStateUpdate now d :: rest) = arrivalsOf rest := by
          simp [arrivalsOf]
        rw [harr]
        have hinv : SeqInv arr (clientStep st (ClientInput.frameStateUpdate now d)) :=
          SeqInv_of_animView_eq (animView_onStateUpdate now st d) ⟨h1, h2, h3⟩
        exact ih _ _ hinv

/-- C2.  FIFO playback: along any stimulus sequence from the fresh scene,
the choreographies dispatched so far form exactly an initial segment of the
accepted animation commands in arrival order, and the ghost log alternates
dispatch/completion — a later command is dispatched only after the earlier
command's completion continuation has fired (the log automaton accepts, and
it is mid-command exactly for the in-flight command). -/
theorem anim_commands_play_in_arrival_order (inputs : List ClientInput) :
    startsOf (runClient inputs).animLog <+: arrivalsOf inputs ∧
    logState (runClient inputs).animLog = some (runClient inputs).animInFlight := by
  have h : SeqInv ([] ++ arrivalsOf inputs) (inputs.foldl clientStep battleSceneInit) :=
    runClient_inv_aux inputs battleSceneInit [] ⟨rfl, rfl, rfl⟩
  obtain ⟨h1, h2, h3⟩ := h
  refine ⟨⟨(runClient inputs).animQueue, ?_⟩, h1⟩
  rw [runClient]
  simpa using h3.symm

/-! ### Normal form of repeated `_updateEntity` calls on one id

The update part `coreU` writes each record field either from the update
alone (death tint, HP fill) or from the update and the sprite's immutable
creation position (tween targets, chosen only by the `> 2px` test); the
sprite's `x`/`y` are never written after creation.  A sequence of updates is
therefore summarized by which update last wrote each field group
(`CoreSpec`), which makes re-running the same sequence a no-op. -/

/-- Last-writer summary of a sequence of `coreU` applications. -/
structure CoreSpec where
  /-- `(target pos, isBoss)` of the last update whose `> 2px` test fired. -/
  farLast : Option ((Int × Int) × Bool)
  /-- `deathCheck` of the last update. -/
  death : Option Bool
  /-- `(pct, bar alpha)` of the last update. -/
  pctA : Option (ℚ × ℚ)
  /-- Fill color written by the last non-boss update. -/
  colorW : Option Int
  deriving Repr, DecidableEq

def emptySpec : CoreSpec := ⟨none, none, none, none⟩

/-- Folding one more update into the summary. -/
def specStep (xy : Int × Int) (sp : CoreSpec) (u : Upd) : CoreSpec :=
  { farLast := if farTest xy u then some (u.pos, u.isBoss) else sp.farLast,
    death := some (deathCheck u.info),
    pctA := some (pctOf u.info, barAlphaOf u.info),
    colorW := if u.isBoss then sp.colorW else some (playerBarColor u.info) }

/-- Replaying a summary onto a sprite. -/
def applySpecSprite (sp : CoreSpec) (s : Sprite) : Sprite :=
  let s1 :=
    match sp.farLast with
    | none => s
    | some pb => { s with tween := some pb.1 }
  match sp.death with
  | none => s1
  | some b =>
      if b then { s1 with tint := some 0x444444, alpha := 1 / 2 }
      else { s1 with tint := none, alpha := 1 }

/-- Replaying a summary onto a name label. -/
def applySpecNt (sp : CoreSpec) (t : NameText) : NameText :=
  match sp.farLast with
  | none => t
  | some pb => { t with tween := some (pb.1.1, pb.1.2 + (if pb.2 then 50 else 30)) }

/-- Replaying a summary onto an HP bar. -/
def applySpecHb (sp : CoreSpec) (hb : HpBar) : HpBar :=
  let h1 :=
    match sp.farLast with
    | none => hb
    | some pb => moveHpBarRec pb.1 hb
  let h2 :=
    match sp.pctA with
    | none => h1
    | some pa =>
        { h1 with fillW := max 0 (h1.barW * pa.1), bgAlpha := pa.2, fillAlpha := pa.2 }
  match sp.colorW with
  | none => h2
  | some col => { h2 with fillColor := col }

/-- Replaying a summary onto a record. -/
def applySpec (sp : CoreSpec) (r : EntRec) : EntRec :=
  { sprite := applySpecSprite sp r.sprite,
    nt := r.nt.map (applySpecNt sp),
    hb := r.hb.map (applySpecHb sp) }

/-- A sequence of `coreU` applications. -/
def coreComp (L : List Upd) (r : EntRec) : EntRec :=
  L.foldl (fun acc u => coreU u acc) r

/-- The summary of a sequence. -/
def specOf (xy : Int × Int) (L : List Upd) : CoreSpec :=
  L.foldl (specStep xy) emptySpec

lemma applySpecSprite_x (sp : CoreSpec) (s : Sprite) :
    (applySpecSprite sp s).x = s.x := by
  unfold applySpecSprite
  rcases sp.farLast with _ | pb <;> rcases sp.death with _ | b <;>
    first
      | rfl
      | (dsimp only; split <;> rfl)

lemma applySpecSprite_y (sp : CoreSpec) (s : Sprite) :
    (applySpecSprite sp s).y = s.y := by
  unfold applySpecSprite
  rcases sp.farLast with _ | pb <;> rcases sp.death with _ | b <;>
    first
      | rfl
      | (dsimp only; split <;> rfl)

lemma coreSprite_applySpec (u : Upd) (xy : Int × Int) (S : CoreSpec)
    (s : Sprite) :
    coreSprite u (farTest xy u) (applySpecSprite S s)
      = applySpecSprite (specStep xy S u) s := by
  unfold coreSprite applySpecSprite specStep
  by_cases hf : farTest xy u = true <;>
    by_cases hd : deathCheck u.info = true <;>
      rcases S.farLast with _ | pb <;> rcases S.death with _ | b <;>
        simp [hf, hd] <;>
          first
            | rfl
            | (split <;> rfl)
            | (and_intros <;> rfl)
            | (split <;> and_intros <;> rfl)

lemma coreNt_applySpec (u : Upd) (xy : Int × Int) (S : CoreSpec)
    (t : NameText) :
    coreNt u (farTest xy u) (applySpecNt S t)
      = applySpecNt (specStep xy S u) t := by
  unfold coreNt applySpecNt specStep
  by_cases hf : farTest xy u = true <;>
    rcases S.farLast with _ | pb <;>
      simp [hf]

set_option maxHeartbeats 1600000 in
lemma coreHb_applySpec (u : Upd) (xy : Int × Int) (S : CoreSpec)
    (hb : HpBar) :
    coreHb u (farTest xy u) (applySpecHb S hb)
      = applySpecHb (specStep xy S u) hb := by
  unfold coreHb applySpecHb specStep updateHpBarFill moveHpBarRec
  by_cases hf : farTest xy u = true <;>
    by_cases hbo : u.isBoss = true <;>
      rcases S.farLast with _ | pb <;> rcases S.pctA with _ | pa <;>
        rcases S.colorW with _ | col <;>
          simp [hf, hbo]

lemma applySpec_empty (r : EntRec) : applySpec emptySpec r = r := by
  unfold applySpec applySpecSprite applySpecNt applySpecHb emptySpec
  dsimp only
  refine EntRec.ext rfl ?_ ?_
  · cases r.nt <;> rfl
  · cases r.hb <;> rfl

lemma coreU_applySpec (u : Upd) (S : CoreSpec) (r : EntRec) :
    coreU u (applySpec S r)
      = applySpec (specStep (r.sprite.x, r.sprite.y) S u) r := by
  unfold coreU applySpec
  dsimp only
  rw [show farTest ((applySpecSprite S r.sprite).x, (applySpecSprite S r.sprite).y) u
        = farTest (r.sprite.x, r.sprite.y) u by
    rw [applySpecSprite_x, applySpecSprite_y]]
  refine EntRec.ext ?_ ?_ ?_
  · exact coreSprite_applySpec u (r.sprite.x, r.sprite.y) S r.sprite
  · cases r.nt with
    | none => rfl
    | some t =>
        simp only [Option.map_map, Option.map_some, Function.comp_apply]
        exact congrArg some (coreNt_applySpec u (r.sprite.x, r.sprite.y) S t)
  · cases r.hb with
    | none => rfl
    | some hb0 =>
        simp only [Option.map_map, Option.map_some, Function.comp_apply]
        exact congrArg some (coreHb_applySpec u (r.sprite.x, r.sprite.y) S hb0)

/-- Normal form: any sequence of `coreU` applications equals its last-writer
summary replayed once. -/
lemma coreComp_applySpec :
    ∀ (L : List Upd) (r : EntRec),
      coreComp L r = applySpec (specOf (r.sprite.x, r.sprite.y) L) r := by
  intro L
  induction L using List.reverseRecOn with
  | nil => intro r; exact (applySpec_empty r).symm
  | append_singleton L u ih =>
      intro r
      have h1 : coreComp (L ++ [u]) r = coreU u (coreComp L r) := by
        unfold coreComp
        rw [List.foldl_append]
        rfl
      have h2 : specOf (r.sprite.x, r.sprite.y) (L ++ [u])
          = specStep (r.sprite.x, r.sprite.y) (specOf (r.sprite.x, r.sprite.y) L) u := by
        unfold specOf
        rw [List.foldl_append]
        rfl
      rw [h1, ih, h2, coreU_applySpec]

lemma applySpecSprite_idem (sp : CoreSpec) (s : Sprite) :
    applySpecSprite sp (applySpecSprite sp s) = applySpecSprite sp s := by
  unfold applySpecSprite
  rcases sp.farLast with _ | pb <;> rcases sp.death with _ | b <;>
    first
      | rfl
      | (dsimp only; split <;> rfl)
      | (dsimp only; split <;> simp)

lemma applySpecNt_idem (sp : CoreSpec) (t : NameText) :
    applySpecNt sp (applySpecNt sp t) = applySpecNt sp t := by
  unfold applySpecNt
  rcases sp.farLast with _ | pb <;> rfl

lemma applySpecHb_idem (sp : CoreSpec) (hb : HpBar) :
    applySpecHb sp (applySpecHb sp hb) = applySpecHb sp hb := by
  unfold applySpecHb moveHpBarRec
  rcases sp.farLast with _ | pb <;> rcases sp.pctA with _ | pa <;>
    rcases sp.colorW with _ | col <;> simp

lemma applySpec_idem (sp : CoreSpec) (r : EntRec) :
    applySpec sp (applySpec sp r) = applySpec sp r := by
  unfold applySpec
  dsimp only
  refine EntRec.ext (applySpecSprite_idem sp r.sprite) ?_ ?_
  · cases r.nt with
    | none => rfl
    | some t =>
        simp only [Option.map_map, Option.map_some, Function.comp_apply]
        exact congrArg some (applySpecNt_idem sp t)
  · cases r.hb with
    | none => rfl
    | some hb0 =>
        simp only [Option.map_map, Option.map_some, Function.comp_apply]
        exact congrArg some (applySpecHb_idem sp hb0)

/-- Re-running the same update sequence on its own result changes nothing. -/
lemma coreComp_idem (L : List Upd) (r : EntRec) :
    coreComp L (coreComp L r) = coreComp L r := by
  have hx : (coreComp L r).sprite.x = r.sprite.x := by
    rw [coreComp_applySpec]; exact applySpecSprite_x _ _
  have hy : (coreComp L r).sprite.y = r.sprite.y := by
    rw [coreComp_applySpec]; exact applySpecSprite_y _ _
  rw [coreComp_applySpec L (coreComp L r), hx, hy, coreComp_applySpec L r,
      applySpec_idem]

lemma applyOne_some (u : Upd) (r : EntRec) : applyOne u (some r) = coreU u r := rfl

lemma applyUpds_some : ∀ (L : List Upd) (r : EntRec),
    applyUpds L (some r) = some (coreComp L r) := by
  intro L
  induction L with
  | nil => intro r; rfl
  | cons u M ih =>
      intro r
      show applyUpds M (some (applyOne u (some r))) = _
      rw [applyOne_some, ih]
      rfl

lemma applyUpds_isSome_of_ne_nil (L : List Upd) (x : Option EntRec)
    (h : L ≠ []) : (applyUpds L x).isSome := by
  cases L with
  | nil => exact absurd rfl h
  | cons u M =>
      show (applyUpds M (some (applyOne u x))).isSome
      rw [applyUpds_some]
      rfl

/-- Re-running the same `_updateEntity` sequence (creation included) on its
own result changes nothing. -/
lemma applyUpds_idem (L : List Upd) (x : Option EntRec) :
    applyUpds L (applyUpds L x) = applyUpds L x := by
  cases L with
  | nil => rfl
  | cons u M =>
      have h1 : applyUpds (u :: M) x
          = some (coreComp (u :: M) (x.elim (createEntRec u) id)) := by
        show applyUpds M (some (applyOne u x)) = _
        rw [applyUpds_some]
        cases x <;> rfl
      have h2 : applyUpds (u :: M)
            (some (coreComp (u :: M) (x.elim (createEntRec u) id)))
          = some (coreComp (u :: M)
              (coreComp (u :: M) (x.elim (createEntRec u) id))) := by
        show applyUpds M (some (applyOne u (some _))) = _
        rw [applyOne_some, applyUpds_some]
        rfl
      rw [h1, h2, coreComp_idem]

/-! ### Pointwise view of the reconcile entity phase -/

/-- The `_updateEntity` calls of one reconcile that target a given id. -/
def updsFor (d : Snapshot) (id : String) : List Upd :=
  (updListOf d).filter (fun u => u.id == id)

/-- The three registry entries at one id. -/
def entView3 (st : SceneState) (id : String) :
    Option Sprite × Option NameText × Option HpBar :=
  (st.entities id, st.nameTexts id, st.hpBars id)

/-- Reading an update-sequence result back into the three maps, with the
untouched values as fallback. -/
def applyRes (x : Option EntRec)
    (fallback : Option Sprite × Option NameText × Option HpBar) :
    Option Sprite × Option NameText × Option HpBar :=
  match x with
  | some r => (some r.sprite, r.nt, r.hb)
  | none => fallback

lemma applyRes_congr (x : Option EntRec) (f1 f2 :
    Option Sprite × Option NameText × Option HpBar) (h : x.isSome) :
    applyRes x f1 = applyRes x f2 := by
  cases x with
  | none => simp at h
  | some r => rfl

lemma recAt_updateEntity_same (st : SceneState) (id : String) (info : EntInfo)
    (b : Bool) :
    recAt (updateEntity st id info b) id
      = some (applyOne ⟨id, info, b⟩ (recAt st id)) := by
  unfold updateEntity recAt updF
  simp

lemma updateEntity_maps_ne (st : SceneState) (id : String) (info : EntInfo)
    (b : Bool) (k : String) (h : k ≠ id) :
    (updateEntity st id info b).entities k = st.entities k ∧
    (updateEntity st id info b).nameTexts k = st.nameTexts k ∧
    (updateEntity st id info b).hpBars k = st.hpBars k := by
  unfold updateEntity updF
  simp [h]

lemma entityFold_at :
    ∀ (L : List Upd) (st : SceneState) (id : String),
      entView3 (L.foldl (fun s u => updateEntity s u.id u.info u.isBoss) st) id
        = applyRes (applyUpds (L.filter (fun u => u.id == id)) (recAt st id))
            (entView3 st id) := by
  intro L
  induction L with
  | nil =>
      intro st id
      show entView3 st id = applyRes (recAt st id) (entView3 st id)
      cases h : st.entities id with
      | none =>
          have : recAt st id = none := by rw [recAt, h]; rfl
          rw [this]; rfl
      | some s =>
          have : recAt st id = some ⟨s, st.nameTexts id, st.hpBars id⟩ := by
            rw [recAt, h]; rfl
          rw [this]
          show (st.entities id, st.nameTexts id, st.hpBars id) = _
          rw [h]; rfl
  | cons u M ih =>
      intro st id
      simp only [List.foldl_cons]
      by_cases hid : u.id = id
      · have hfilter : (u :: M).filter (fun u => u.id == id)
            = u :: M.filter (fun u => u.id == id) := by
          simp [List.filter_cons, hid]
        have hrec : recAt (updateEntity st u.id u.info u.isBoss) id
            = some (applyOne u (recAt st id)) := by
          rw [← hid, recAt_updateEntity_same]
        rw [ih, hrec, hfilter]
        have hsome1 : (applyUpds (M.filter (fun u => u.id == id))
            (some (applyOne u (recAt st id)))).isSome := by
          rw [applyUpds_some]; rfl
        have harg : applyUpds ((u :: M.filter (fun u => u.id == id)))
            (recAt st id)
            = applyUpds (M.filter (fun u => u.id == id))
                (some (applyOne u (recAt st id))) := rfl
        rw [harg]
        exact applyRes_congr _ _ _ hsome1
      · have hfilter : (u :: M).filter (fun u => u.id == id)
            = M.filter (fun u => u.id == id) := by
          simp [List.filter_cons, hid]
        obtain ⟨h1, h2, h3⟩ := updateEntity_maps_ne st u.id u.info u.isBoss id
          (fun hk => hid hk.symm)
        have hrec : recAt (updateEntity st u.id u.info u.isBoss) id
            = recAt st id := by
          rw [recAt, recAt, h1, h2, h3]
        have hview : entView3 (updateEntity st u.id u.info u.isBoss) id
            = entView3 st id := by
          rw [entView3, entView3, h1, h2, h3]
        rw [ih, hrec, hview, hfilter]

lemma entityPhase_at (d : Snapshot) (st : SceneState) (id : String) :
    entView3 (entityPhase d st) id
      = applyRes (applyUpds (updsFor d id) (recAt st id)) (entView3 st id) :=
  entityFold_at (updListOf d) st id

/-- The registry maps and remembered snapshot, as one view. -/
def entMaps (st : SceneState) :
    (String → Option Sprite) × (String → Option NameText) ×
    (String → Option HpBar) × Option Snapshot :=
  (st.entities, st.nameTexts, st.hpBars, st.lastState)

lemma getEntityPos_congr {st st' : SceneState}
    (h1 : st.entities = st'.entities) (h2 : st.lastState = st'.lastState)
    (x : Option String) : getEntityPos st x = getEntityPos st' x := by
  unfold getEntityPos getEntityPosFallback
  rw [h1, h2]

lemma entMaps_showCastText (st : SceneState) (e sk : String) (r : ℚ)
    (b : Bool) : entMaps (showCastText st e sk r b) = entMaps st := by
  unfold showCastText
  cases getEntityPos st (some e) <;> rfl

lemma entMaps_castTextCharStep (st : SceneState) (kc : String × EntInfo) :
    entMaps (castTextCharStep st kc) = entMaps st := by
  unfold castTextCharStep
  cases kc.2.casting
  · rfl
  · apply entMaps_showCastText

lemma entMaps_foldl {β : Type} (f : SceneState → β → SceneState)
    (hf : ∀ s x, entMaps (f s x) = entMaps s) :
    ∀ (l : List β) (st : SceneState), entMaps (l.foldl f st) = entMaps st := by
  intro l
  induction l with
  | nil => intro st; rfl
  | cons x t ih =>
      intro st
      simp only [List.foldl_cons]
      rw [ih, hf]

lemma entMaps_bubbleStep (now : ℚ) (st : SceneState) (entry : AiEntry) :
    entMaps (bubbleStep now st entry) = entMaps st := by
  unfold bubbleStep
  repeat' (first | split | dsimp only)
  all_goals rfl

lemma entMaps_updateAllCastTexts (d : Snapshot) (s : SceneState) :
    entMaps (updateAllCastTexts d s) = entMaps s := by
  unfold updateAllCastTexts
  have hboss : ∀ s' : SceneState, entMaps
      (match d.boss_card with
       | some bc =>
           match bc.casting with
           | some c => showCastText s' "boss" c.skill_name c.remaining true
           | none => hideCastText s' "boss"
       | none => hideCastText s' "boss") = entMaps s' := by
    intro s'
    rcases d.boss_card with _ | bc
    · rfl
    dsimp only
    rcases bc.casting with _ | c
    · rfl
    · apply entMaps_showCastText
  cases d.characters
  · exact hboss s
  · rw [entMaps_foldl _ entMaps_castTextCharStep, hboss]

lemma entMaps_updateAiBubbles (now : ℚ) (d : Snapshot) (s : SceneState) :
    entMaps (updateAiBubbles now d s) = entMaps s := by
  unfold updateAiBubbles
  cases d.ai_log
  · rfl
  · exact entMaps_foldl _ (fun s e => entMaps_bubbleStep now s e) _ s

/-- After `_onStateUpdate(d)` the registry maps are those left by the
update-and-removal half, and the remembered snapshot is `d`. -/
lemma onStateUpdate_entMaps (now : ℚ) (st : SceneState) (d : Snapshot) :
    entMaps (onStateUpdate now st (some d))
      = entMaps (removalPhase d (entityPhase d { st with lastState := some d })) := by
  show entMaps (updateAiBubbles now d (updateAllCastTexts d (updateCastArc d
      (updateAggroLine d (removalPhase d
        (entityPhase d { st with lastState := some d })))))) = _
  rw [entMaps_updateAiBubbles, entMaps_updateAllCastTexts]
  simp only [updateCastArc, updateAggroLine, entMaps]

lemma removalPhase_entities_at (d : Snapshot) (s : SceneState) (id : String) :
    (removalPhase d s).entities id
      = if id.startsWith "add_" && !((aliveAddIds d).contains id) then none
        else s.entities id := by
  simp only [removalPhase]

lemma removalPhase_nameTexts_at (d : Snapshot) (s : SceneState) (id : String) :
    (removalPhase d s).nameTexts id
      = if id.startsWith "add_" && !((aliveAddIds d).contains id)
           && (s.entities id).isSome then none
        else s.nameTexts id := by
  simp only [removalPhase]

lemma removalPhase_hpBars_at (d : Snapshot) (s : SceneState) (id : String) :
    (removalPhase d s).hpBars id
      = if id.startsWith "add_" && !((aliveAddIds d).contains id)
           && (s.entities id).isSome then none
        else s.hpBars id := by
  simp only [removalPhase]

lemma entityPhase_lastState (d : Snapshot) (s : SceneState) :
    (entityPhase d s).lastState = s.lastState := by
  unfold entityPhase
  generalize updListOf d = L
  induction L generalizing s with
  | nil => rfl
  | cons u M ih =>
      simp only [List.foldl_cons]
      rw [ih]
      rfl

lemma applyUpds_eq_none (L : List Upd) (x : Option EntRec)
    (h : applyUpds L x = none) : L = [] ∧ x = none := by
  cases L with
  | nil => exact ⟨rfl, h⟩
  | cons u M =>
      exfalso
      have := applyUpds_isSome_of_ne_nil (u :: M) x (by simp)
      rw [h] at this
      simp at this


/-- Pointwise idempotence of the update-and-removal half: re-running it on
its own output reproduces the same three registry entries at every id. -/
lemma mid_entView3_idem (d : Snapshot) (st r1 : SceneState)
    (h : entMaps r1
      = entMaps (removalPhase d (entityPhase d { st with lastState := some d })))
    (id : String) :
    entView3 (removalPhase d (entityPhase d { r1 with lastState := some d })) id
      = entView3 (removalPhase d (entityPhase d { st with lastState := some d })) id := by
  obtain ⟨he, hn, hh, -⟩ :
      r1.entities = (removalPhase d (entityPhase d { st with lastState := some d })).entities ∧
      r1.nameTexts = (removalPhase d (entityPhase d { st with lastState := some d })).nameTexts ∧
      r1.hpBars = (removalPhase d (entityPhase d { st with lastState := some d })).hpBars ∧
      r1.lastState = (removalPhase d (entityPhase d { st with lastState := some d })).lastState := by
    simpa [entMaps, Prod.ext_iff] using h
  set A := entityPhase d { st with lastState := some d } with hAdef
  set B := entityPhase d { r1 with lastState := some d } with hBdef
  have hA : (A.entities id, A.nameTexts id, A.hpBars id)
      = applyRes (applyUpds (updsFor d id) (recAt st id))
          (st.entities id, st.nameTexts id, st.hpBars id) :=
    entityPhase_at d { st with lastState := some d } id
  have hB : (B.entities id, B.nameTexts id, B.hpBars id)
      = applyRes (applyUpds (updsFor d id) (recAt r1 id))
          (r1.entities id, r1.nameTexts id, r1.hpBars id) :=
    entityPhase_at d { r1 with lastState := some d } id
  have hre : r1.entities id = (removalPhase d A).entities id := congrFun he id
  have hrn : r1.nameTexts id = (removalPhase d A).nameTexts id := congrFun hn id
  have hrh : r1.hpBars id = (removalPhase d A).hpBars id := congrFun hh id
  show ((removalPhase d B).entities id, (removalPhase d B).nameTexts id,
        (removalPhase d B).hpBars id)
      = ((removalPhase d A).entities id, (removalPhase d A).nameTexts id,
         (removalPhase d A).hpBars id)
  rw [removalPhase_entities_at, removalPhase_nameTexts_at, removalPhase_hpBars_at,
      removalPhase_entities_at d A, removalPhase_nameTexts_at d A,
      removalPhase_hpBars_at d A]
  by_cases hP : (id.startsWith "add_" && !((aliveAddIds d).contains id)) = true
  · -- a dead add: both passes end with all three entries deleted
    simp only [hP, Bool.true_and, if_true]
    have hre0 : r1.entities id = none := by
      rw [hre, removalPhase_entities_at, hP]
      rfl
    have hrecr1 : recAt r1 id = none := by rw [recAt, hre0]; rfl
    rw [hrecr1] at hB
    cases hL : updsFor d id with
    | nil =>
        rw [hL] at hB
        have hBe : B.entities id = r1.entities id := congrArg (fun p => p.1) hB
        have hBn : B.nameTexts id = r1.nameTexts id := congrArg (fun p => p.2.1) hB
        have hBh : B.hpBars id = r1.hpBars id := congrArg (fun p => p.2.2) hB
        rw [hBe, hBn, hBh, hre0]
        simp only [Prod.mk.injEq]
        refine ⟨trivial, ?_, ?_⟩
        · rw [hrn, removalPhase_nameTexts_at, hP]
          simp
        · rw [hrh, removalPhase_hpBars_at, hP]
          simp
    | cons u M =>
        have hLne : updsFor d id ≠ [] := by rw [hL]; simp
        obtain ⟨R2, hR2⟩ : ∃ r, applyUpds (updsFor d id) (none : Option EntRec) = some r := by
          have hs := applyUpds_isSome_of_ne_nil (updsFor d id) none hLne
          cases hx : applyUpds (updsFor d id) (none : Option EntRec) with
          | none => rw [hx] at hs; simp at hs
          | some r => exact ⟨r, rfl⟩
        obtain ⟨R1, hR1⟩ : ∃ r, applyUpds (updsFor d id) (recAt st id) = some r := by
          have hs := applyUpds_isSome_of_ne_nil (updsFor d id) (recAt st id) hLne
          cases hx : applyUpds (updsFor d id) (recAt st id) with
          | none => rw [hx] at hs; simp at hs
          | some r => exact ⟨r, rfl⟩
        rw [hR2] at hB
        rw [hR1] at hA
        have hBe : B.entities id = some R2.sprite := congrArg (fun p => p.1) hB
        have hAe : A.entities id = some R1.sprite := congrArg (fun p => p.1) hA
        rw [hBe, hAe]
        simp
  · -- the id survives removal
    have hPf : (id.startsWith "add_" && !((aliveAddIds d).contains id)) = false := by
      simpa using hP
    simp only [hPf, Bool.false_and, Bool.false_eq_true, if_false]
    have hr1e : r1.entities id = A.entities id := by
      rw [hre, removalPhase_entities_at, hPf]
      rfl
    have hr1n : r1.nameTexts id = A.nameTexts id := by
      rw [hrn, removalPhase_nameTexts_at, hPf]
      rfl
    have hr1h : r1.hpBars id = A.hpBars id := by
      rw [hrh, removalPhase_hpBars_at, hPf]
      rfl
    cases hx : applyUpds (updsFor d id) (recAt st id) with
    | none =>
        obtain ⟨hL0, hx0⟩ := applyUpds_eq_none _ _ hx
        rw [hx] at hA
        have hAe : A.entities id = st.entities id := congrArg (fun p => p.1) hA
        have hAn : A.nameTexts id = st.nameTexts id := congrArg (fun p => p.2.1) hA
        have hAh : A.hpBars id = st.hpBars id := congrArg (fun p => p.2.2) hA
        have hste : st.entities id = none := by
          cases hse : st.entities id with
          | none => rfl
          | some s =>
              have : recAt st id = some ⟨s, st.nameTexts id, st.hpBars id⟩ := by
                rw [recAt, hse]; rfl
              rw [this] at hx0
              exact absurd hx0 (by simp)
        have hrec1 : recAt r1 id = none := by
          rw [recAt, hr1e, hAe, hste]; rfl
        rw [hrec1, hL0] at hB
        have hBe : B.entities id = r1.entities id := congrArg (fun p => p.1) hB
        have hBn : B.nameTexts id = r1.nameTexts id := congrArg (fun p => p.2.1) hB
        have hBh : B.hpBars id = r1.hpBars id := congrArg (fun p => p.2.2) hB
        rw [hBe, hBn, hBh, hr1e, hr1n, hr1h]
    | some R =>
        rw [hx] at hA
        have hAe : A.entities id = some R.sprite := congrArg (fun p => p.1) hA
        have hAn : A.nameTexts id = R.nt := congrArg (fun p => p.2.1) hA
        have hAh : A.hpBars id = R.hb := congrArg (fun p => p.2.2) hA
        have hrec1 : recAt r1 id = some R := by
          rw [recAt, hr1e, hAe]
          show some (⟨R.sprite, r1.nameTexts id, r1.hpBars id⟩ : EntRec) = some R
          rw [hr1n, hAn, hr1h, hAh]
        have hsome : applyUpds (updsFor d id) (some R) = some R := by
          have hi := applyUpds_idem (updsFor d id) (recAt st id)
          rw [hx] at hi
          exact hi
        rw [hrec1, hsome] at hB
        have hBe : B.entities id = some R.sprite := congrArg (fun p => p.1) hB
        have hBn : B.nameTexts id = R.nt := congrArg (fun p => p.2.1) hB
        have hBh : B.hpBars id = R.hb := congrArg (fun p => p.2.2) hB
        rw [hBe, hBn, hBh, hAe, hAn, hAh]

/-! ### Per-id view of `_updateAllCastTexts`

Each reconcile sends every id a list of show/hide cast-text steps whose
parameters (position, label content) depend only on the snapshot and the
registry maps, which the cast-text phase itself never changes. -/

/-- One cast-text step for one id: `_showCastText` with its resolved
position, or `_hideCastText`. -/
inductive CastStep where
  | disp (pos : Option (Int × Int)) (sk : String) (rem : ℚ) (isB : Bool)
  | hide
  deriving Repr, DecidableEq

/-- The effect of one step on the stored cast text (`_showCastText` lines
423-446, `_hideCastText` lines 448-453). -/
def castApply (s : CastStep) (t : Option CastText) : Option CastText :=
  match s with
  | CastStep.hide => none
  | CastStep.disp none _ _ _ => t
  | CastStep.disp (some p) sk rem isB =>
      some (match t with
            | some t0 => { t0 with x := p.1, y := p.2 + (if isB then -60 else -42),
                                   skillName := sk, remaining := rem }
            | none => { x := p.1, y := p.2 + (if isB then -60 else -42),
                        skillName := sk, remaining := rem, bossStyle := isB })

def castApplyList (L : List CastStep) (t : Option CastText) : Option CastText :=
  L.foldl (fun t s => castApply s t) t

/-- The boss step of `_updateAllCastTexts` for a given reading state. -/
def bossCastStep (st : SceneState) (d : Snapshot) : CastStep :=
  match d.boss_card with
  | some bc =>
      match bc.casting with
      | some c => CastStep.disp (getEntityPos st (some "boss")) c.skill_name c.remaining true
      | none => CastStep.hide
  | none => CastStep.hide

/-- The character step of `_updateAllCastTexts` for one `characters` entry. -/
def charCastStep (st : SceneState) (kc : String × EntInfo) : CastStep :=
  match kc.2.casting with
  | some c => CastStep.disp (getEntityPos st (some kc.1)) c.skill_name c.remaining false
  | none => CastStep.hide

/-- All the steps one id receives from `_updateAllCastTexts(d)`, with
positions resolved against `st`. -/
def castStepsFor (st : SceneState) (d : Snapshot) (id : String) : List CastStep :=
  (if id = "boss" then [bossCastStep st d] else [])
  ++ (d.characters.getD []).filterMap (fun kc =>
       if kc.1 = id then some (charCastStep st kc) else none)

lemma entMaps_proj {s s' : SceneState} (h : entMaps s = entMaps s') :
    s.entities = s'.entities ∧ s.lastState = s'.lastState := by
  obtain ⟨h1, -, -, h4⟩ :
      s.entities = s'.entities ∧ s.nameTexts = s'.nameTexts ∧
      s.hpBars = s'.hpBars ∧ s.lastState = s'.lastState := by
    simpa [entMaps, Prod.ext_iff] using h
  exact ⟨h1, h4⟩

lemma showCastText_at (s : SceneState) (e sk : String) (rem : ℚ) (b : Bool)
    (id : String) :
    (showCastText s e sk rem b).castTexts id
      = if e = id then
          castApply (CastStep.disp (getEntityPos s (some e)) sk rem b)
            (s.castTexts id)
        else s.castTexts id := by
  unfold showCastText castApply
  cases hp : getEntityPos s (some e) with
  | none => by_cases hid : e = id <;> simp [hid]
  | some p =>
      dsimp only
      by_cases hid : e = id
      · subst hid
        simp [updF]
      · have hid2 : id ≠ e := fun h => hid h.symm
        simp [updF, hid, hid2]

lemma hideCastText_at (s : SceneState) (e : String) (id : String) :
    (hideCastText s e).castTexts id
      = if e = id then castApply CastStep.hide (s.castTexts id)
        else s.castTexts id := by
  unfold hideCastText castApply updF
  by_cases hid : e = id
  · subst hid; simp
  · have hid2 : id ≠ e := fun h => hid h.symm
    simp [hid, hid2]

lemma castTextCharStep_entMaps (s : SceneState) (kc : String × EntInfo) :
    (castTextCharStep s kc).entities = s.entities ∧
    (castTextCharStep s kc).lastState = s.lastState := by
  have h := entMaps_castTextCharStep s kc
  exact entMaps_proj h

/-- The character fold of `_updateAllCastTexts`, read pointwise: positions
may be resolved against any state with the same registry map and snapshot
memory. -/
lemma castFold_at (st : SceneState) :
    ∀ (chars : List (String × EntInfo)) (s : SceneState),
      s.entities = st.entities → s.lastState = st.lastState → ∀ id,
      (chars.foldl castTextCharStep s).castTexts id
        = castApplyList
            (chars.filterMap (fun kc =>
              if kc.1 = id then some (charCastStep st kc) else none))
            (s.castTexts id) := by
  intro chars
  induction chars with
  | nil => intro s h1 h2 id; rfl
  | cons kc rest ih =>
      intro s h1 h2 id
      simp only [List.foldl_cons]
      have hstep : (castTextCharStep s kc).entities = st.entities ∧
          (castTextCharStep s kc).lastState = st.lastState := by
        obtain ⟨a, b⟩ := castTextCharStep_entMaps s kc
        exact ⟨a.trans h1, b.trans h2⟩
      have hrec := ih (castTextCharStep s kc) hstep.1 hstep.2 id
      rw [hrec]
      have hcs : (castTextCharStep s kc).castTexts id
          = if kc.1 = id then castApply (charCastStep st kc) (s.castTexts id)
            else s.castTexts id := by
        unfold castTextCharStep charCastStep
        cases kc.2.casting with
        | none => exact hideCastText_at s kc.1 id
        | some c =>
            rw [showCastText_at]
            rw [show getEntityPos s (some kc.1) = getEntityPos st (some kc.1) from
              getEntityPos_congr h1 h2 (some kc.1)]
      by_cases hid : kc.1 = id
      · rw [hcs]
        simp only [hid, if_true, List.filterMap_cons]
        try rfl
      · rw [hcs]
        simp only [hid, if_false, List.filterMap_cons]
        try rfl

lemma getEntityPos_fun_congr {s s' : SceneState}
    (h1 : s.entities = s'.entities) (h2 : s.lastState = s'.lastState) :
    getEntityPos s = getEntityPos s' :=
  funext (getEntityPos_congr h1 h2)

lemma castStepsFor_congr {s s' : SceneState} (d : Snapshot) (id : String)
    (h1 : s.entities = s'.entities) (h2 : s.lastState = s'.lastState) :
    castStepsFor s d id = castStepsFor s' d id := by
  unfold castStepsFor bossCastStep charCastStep
  rw [getEntityPos_fun_congr h1 h2]

/-- The whole `_updateAllCastTexts(d)`, read pointwise. -/
lemma updateAllCastTexts_at (d : Snapshot) (s : SceneState) (id : String) :
    (updateAllCastTexts d s).castTexts id
      = castApplyList (castStepsFor s d id) (s.castTexts id) := by
  unfold updateAllCastTexts
  have hb_at : ∀ s' : SceneState, s'.entities = s.entities → s'.lastState = s.lastState →
      (match d.boss_card with
       | some bc =>
           match bc.casting with
           | some c => showCastText s' "boss" c.skill_name c.remaining true
           | none => hideCastText s' "boss"
       | none => hideCastText s' "boss").castTexts id
      = if id = "boss" then castApply (bossCastStep s d) (s'.castTexts id)
        else s'.castTexts id := by
    intro s' h1 h2
    unfold bossCastStep
    rcases d.boss_card with _ | bc
    · dsimp only
      rw [hideCastText_at]
      by_cases hid : id = "boss"
      · simp [hid]
      · have hid2 : ¬ "boss" = id := fun h => hid h.symm
        simp [hid, hid2]
    dsimp only
    rcases bc.casting with _ | c
    · dsimp only
      rw [hideCastText_at]
      by_cases hid : id = "boss"
      · simp [hid]
      · have hid2 : ¬ "boss" = id := fun h => hid h.symm
        simp [hid, hid2]
    · dsimp only
      rw [showCastText_at]
      rw [show getEntityPos s' (some "boss") = getEntityPos s (some "boss") from
        getEntityPos_congr h1 h2 (some "boss")]
      by_cases hid : id = "boss"
      · simp [hid]
      · have hid2 : ¬ "boss" = id := fun h => hid h.symm
        simp [hid, hid2]
  have hbmaps : ∀ s' : SceneState, entMaps
      (match d.boss_card with
       | some bc =>
           match bc.casting with
           | some c => showCastText s' "boss" c.skill_name c.remaining true
           | none => hideCastText s' "boss"
       | none => hideCastText s' "boss") = entMaps s' := by
    intro s'
    rcases d.boss_card with _ | bc
    · rfl
    dsimp only
    rcases bc.casting with _ | c
    · rfl
    · apply entMaps_showCastText
  cases hchars : d.characters with
  | none =>
      have := hb_at s rfl rfl
      rw [this]
      unfold castStepsFor
      rw [hchars]
      by_cases hid : id = "boss" <;> simp [hid, castApplyList]
  | some chars =>
      obtain ⟨hm1, hm2⟩ := entMaps_proj (hbmaps s)
      have hfold := castFold_at s chars _ hm1 hm2 id
      rw [hfold, hb_at s rfl rfl]
      unfold castStepsFor
      rw [hchars]
      by_cases hid : id = "boss"
      · simp only [hid, if_true]
        rfl
      · simp only [hid, if_false]
        rfl

/-! ### Idempotence of the cast-text steps -/

/-- The style recorded in a stored cast text (chosen at creation and never
re-written by `_showCastText`). -/
def castStyle (t : Option CastText) : Option Bool :=
  t.map (fun c => c.bossStyle)

/-- How one step transforms the stored style. -/
def castStyleStep (s : CastStep) (o : Option Bool) : Option Bool :=
  match s with
  | CastStep.hide => none
  | CastStep.disp none _ _ _ => o
  | CastStep.disp (some _) _ _ isB => some (o.getD isB)

def castStyleList (L : List CastStep) (o : Option Bool) : Option Bool :=
  L.foldl (fun o s => castStyleStep s o) o

lemma castStyle_castApply (s : CastStep) (t : Option CastText) :
    castStyle (castApply s t) = castStyleStep s (castStyle t) := by
  cases s with
  | hide => rfl
  | disp pos sk rem isB =>
      cases pos with
      | none => rfl
      | some p => cases t <;> rfl

lemma castStyle_commute : ∀ (L : List CastStep) (t : Option CastText),
    castStyle (castApplyList L t) = castStyleList L (castStyle t) := by
  intro L
  induction L with
  | nil => intro t; rfl
  | cons s M ih =>
      intro t
      show castStyle (castApplyList M (castApply s t))
          = castStyleList M (castStyleStep s (castStyle t))
      rw [ih, castStyle_castApply]

lemma castApplyList_append (L1 L2 : List CastStep) (t : Option CastText) :
    castApplyList (L1 ++ L2) t = castApplyList L2 (castApplyList L1 t) := by
  simp [castApplyList, List.foldl_append]

lemma castStyleList_append (L1 L2 : List CastStep) (o : Option Bool) :
    castStyleList (L1 ++ L2) o = castStyleList L2 (castStyleList L1 o) := by
  simp [castStyleList, List.foldl_append]

lemma castStyleList_classify : ∀ L : List CastStep,
    (∀ o1 o2, castStyleList L o1 = castStyleList L o2) ∨
    (∀ o, castStyleList L o = o) ∨
    (∃ q, ∀ o, castStyleList L o = some (o.getD q)) := by
  intro L
  induction L using List.reverseRecOn with
  | nil => exact Or.inr (Or.inl (fun o => rfl))
  | append_singleton M s ih =>
      have hstep : ∀ o, castStyleList (M ++ [s]) o = castStyleStep s (castStyleList M o) := by
        intro o
        rw [castStyleList_append]
        rfl
      cases s with
      | hide =>
          refine Or.inl (fun o1 o2 => ?_)
          rw [hstep, hstep]
          rfl
      | disp pos sk rem isB =>
          cases pos with
          | none =>
              rcases ih with hc | hi | ⟨q, hq⟩
              · exact Or.inl (fun o1 o2 => by rw [hstep, hstep, castStyleStep]; exact hc o1 o2)
              · exact Or.inr (Or.inl (fun o => by rw [hstep, castStyleStep]; exact hi o))
              · exact Or.inr (Or.inr ⟨q, fun o => by rw [hstep, castStyleStep]; exact hq o⟩)
          | some p =>
              rcases ih with hc | hi | ⟨q, hq⟩
              · refine Or.inl (fun o1 o2 => ?_)
                rw [hstep, hstep]
                show some ((castStyleList M o1).getD isB) = some ((castStyleList M o2).getD isB)
                rw [hc o1 o2]
              · refine Or.inr (Or.inr ⟨isB, fun o => ?_⟩)
                rw [hstep]
                show some ((castStyleList M o).getD isB) = some (o.getD isB)
                rw [hi o]
              · refine Or.inr (Or.inr ⟨q, fun o => ?_⟩)
                rw [hstep]
                show some ((castStyleList M o).getD isB) = some (o.getD q)
                rw [hq o]
                rfl

lemma castApply_disp_some (p : Int × Int) (sk : String) (rem : ℚ) (isB : Bool)
    (t : Option CastText) :
    castApply (CastStep.disp (some p) sk rem isB) t
      = some { x := p.1, y := p.2 + (if isB then -60 else -42), skillName := sk,
               remaining := rem, bossStyle := (castStyle t).getD isB } := by
  cases t <;> rfl

/-- Re-running the same cast-text step sequence on its own output changes
nothing. -/
lemma castApplyList_idem : ∀ (L : List CastStep) (t : Option CastText),
    castApplyList L (castApplyList L t) = castApplyList L t := by
  intro L
  induction L using List.reverseRecOn with
  | nil => intro t; rfl
  | append_singleton M s ih =>
      intro t
      cases s with
      | hide =>
          simp only [castApplyList_append]
          rfl
      | disp pos sk rem isB =>
          cases pos with
          | none =>
              have hid : ∀ x, castApplyList (M ++ [CastStep.disp none sk rem isB]) x
                  = castApplyList M x := by
                intro x
                rw [castApplyList_append]
                rfl
              simp only [hid]
              exact ih t
          | some p =>
              have hs : ∀ x, castApplyList (M ++ [CastStep.disp (some p) sk rem isB]) x
                  = some { x := p.1, y := p.2 + (if isB then -60 else -42),
                           skillName := sk, remaining := rem,
                           bossStyle := (castStyle (castApplyList M x)).getD isB } := by
                intro x
                rw [castApplyList_append]
                show castApply (CastStep.disp (some p) sk rem isB) (castApplyList M x) = _
                rw [castApply_disp_some]
              rw [hs, hs]
              have hstyle : (castStyle (castApplyList M
                    (some { x := p.1, y := p.2 + (if isB then -60 else -42),
                            skillName := sk, remaining := rem,
                            bossStyle := (castStyle (castApplyList M t)).getD isB }))).getD isB
                  = (castStyle (castApplyList M t)).getD isB := by
                rw [castStyle_commute, castStyle_commute]
                have hsv : castStyle (some
                    ({ x := p.1, y := p.2 + (if isB then -60 else -42),
                       skillName := sk, remaining := rem,
                       bossStyle := (castStyleList M (castStyle t)).getD isB } : CastText))
                    = some ((castStyleList M (castStyle t)).getD isB) := rfl
                rw [hsv]
                rcases castStyleList_classify M with hc | hi | ⟨q, hq⟩
                · rw [hc (some ((castStyleList M (castStyle t)).getD isB)) (castStyle t)]
                · rw [hi, hi]
                  rfl
                · rw [hq, hq]
                  rfl
              rw [hstyle]

/-! ### Per-id view of `_updateAiBubbles` -/

/-- Show-if-absent, the bubble-map effect of `_showAiBubble`. -/
def bubbleApply (b : Option AiBubble) (v : AiBubble) : Option AiBubble :=
  if b.isSome then b else some v

def bubbleApplyList (V : List AiBubble) (b : Option AiBubble) : Option AiBubble :=
  V.foldl bubbleApply b

/-- The bubbles aimed at one id by a reconcile, positions resolved against
`st`. -/
def bubbleCandidatesFor (st : SceneState) (now : ℚ) (d : Snapshot)
    (id : String) : List AiBubble :=
  (d.ai_log.getD []).filterMap (fun e =>
    (bubbleValue st now e).bind (fun v =>
      if bubbleEntryId e = id then some v else none))

lemma bubbleValue_congr {s s' : SceneState} (now : ℚ) (entry : AiEntry)
    (h1 : s.entities = s'.entities) (h2 : s.lastState = s'.lastState) :
    bubbleValue s now entry = bubbleValue s' now entry := by
  unfold bubbleValue
  rw [getEntityPos_fun_congr h1 h2]

lemma bubbleStep_aiBubbles_at (now : ℚ) (s : SceneState) (entry : AiEntry)
    (id : String) :
    (bubbleStep now s entry).aiBubbles id
      = match (bubbleValue s now entry).bind (fun v =>
          if bubbleEntryId entry = id then some v else none) with
        | some v => bubbleApply (s.aiBubbles id) v
        | none => s.aiBubbles id := by
  unfold bubbleStep bubbleApply
  cases hv : bubbleValue s now entry with
  | none => rfl
  | some b =>
      show (if (s.aiBubbles (bubbleEntryId entry)).isSome then s
            else { s with aiBubbles := updF s.aiBubbles (bubbleEntryId entry) (some b) }).aiBubbles id
          = match (if bubbleEntryId entry = id then some b else none) with
            | some v => if (s.aiBubbles id).isSome then s.aiBubbles id else some v
            | none => s.aiBubbles id
      by_cases hid : bubbleEntryId entry = id
      · subst hid
        rw [if_pos rfl]
        by_cases hex : (s.aiBubbles (bubbleEntryId entry)).isSome = true
        · simp [hex]
        · simp only [Bool.not_eq_true] at hex
          simp [hex, updF]
      · rw [if_neg hid]
        by_cases hex : (s.aiBubbles (bubbleEntryId entry)).isSome = true
        · simp [hex]
        · simp only [Bool.not_eq_true] at hex
          have hid2 : id ≠ bubbleEntryId entry := fun h => hid h.symm
          simp [hex, updF, hid2]

lemma bubbleStep_entMaps2 (now : ℚ) (s : SceneState) (entry : AiEntry) :
    (bubbleStep now s entry).entities = s.entities ∧
    (bubbleStep now s entry).lastState = s.lastState :=
  entMaps_proj (entMaps_bubbleStep now s entry)

lemma bubbleFold_at (st : SceneState) (now : ℚ) :
    ∀ (entries : List AiEntry) (s : SceneState),
      s.entities = st.entities → s.lastState = st.lastState → ∀ id,
      ((entries.foldl (bubbleStep now) s).aiBubbles id)
        = bubbleApplyList
            (entries.filterMap (fun e =>
              (bubbleValue st now e).bind (fun v =>
                if bubbleEntryId e = id then some v else none)))
            (s.aiBubbles id) := by
  intro entries
  induction entries with
  | nil => intro s h1 h2 id; rfl
  | cons e rest ih =>
      intro s h1 h2 id
      simp only [List.foldl_cons, List.filterMap_cons]
      obtain ⟨hm1, hm2⟩ := bubbleStep_entMaps2 now s e
      have hrec := ih (bubbleStep now s e) (hm1.trans h1) (hm2.trans h2) id
      rw [hrec]
      have hval : bubbleValue s now e = bubbleValue st now e :=
        bubbleValue_congr now e h1 h2
      have hat := bubbleStep_aiBubbles_at now s e id
      rw [hval] at hat
      cases hb : (bubbleValue st now e).bind (fun v =>
          if bubbleEntryId e = id then some v else none) with
      | none =>
          rw [hb] at hat
          rw [hat]
      | some v =>
          rw [hb] at hat
          rw [hat]
          rfl

/-- The whole `_updateAiBubbles(now, d)`, read pointwise. -/
lemma updateAiBubbles_at (now : ℚ) (d : Snapshot) (s : SceneState)
    (id : String) :
    (updateAiBubbles now d s).aiBubbles id
      = bubbleApplyList (bubbleCandidatesFor s now d id) (s.aiBubbles id) := by
  unfold updateAiBubbles bubbleCandidatesFor
  cases hlog : d.ai_log with
  | none => rfl
  | some entries => exact bubbleFold_at s now entries s rfl rfl id

lemma bubbleApplyList_some : ∀ (V : List AiBubble) (v : AiBubble),
    bubbleApplyList V (some v) = some v := by
  intro V
  induction V with
  | nil => intro v; rfl
  | cons w W ih =>
      intro v
      show bubbleApplyList W (bubbleApply (some v) w) = some v
      rw [show bubbleApply (some v) w = some v from rfl, ih]

/-- Re-showing the same bubbles on their own output changes nothing. -/
lemma bubbleApplyList_idem (V : List AiBubble) (b : Option AiBubble) :
    bubbleApplyList V (bubbleApplyList V b) = bubbleApplyList V b := by
  cases b with
  | some v => rw [bubbleApplyList_some, bubbleApplyList_some]
  | none =>
      cases hv : bubbleApplyList V none with
      | none => rw [hv]
      | some v => rw [bubbleApplyList_some]

/-! ### Frame lemmas for the reconcile phases, and the derived-view values -/

lemma foldl_view_eq {β γ : Type} (v : SceneState → γ)
    (f : SceneState → β → SceneState) (hf : ∀ s x, v (f s x) = v s) :
    ∀ (l : List β) (st : SceneState), v (l.foldl f st) = v st := by
  intro l
  induction l with
  | nil => intro st; rfl
  | cons x t ih =>
      intro st
      simp only [List.foldl_cons]
      rw [ih, hf]

/-- The fields not owned by the entity/removal phases. -/
def viewA (st : SceneState) :
    (String → Option CastText) × (String → Option AiBubble) ×
    Option ((Int × Int) × (Int × Int)) × Option ((Int × Int) × ℚ) × Nat :=
  (st.castTexts, st.aiBubbles, st.aggroLine, st.castArc, st.gameOverOverlays)

lemma viewA_entityPhase (d : Snapshot) (s : SceneState) :
    viewA (entityPhase d s) = viewA s :=
  foldl_view_eq viewA (fun (s : SceneState) (u : Upd) => updateEntity s u.id u.info u.isBoss)
    (fun s u => rfl) (updListOf d) s

lemma viewA_removalPhase (d : Snapshot) (s : SceneState) :
    viewA (removalPhase d s) = viewA s := by
  simp only [removalPhase, viewA]

lemma updateAggroLine_castTexts (d : Snapshot) (s : SceneState) :
    (updateAggroLine d s).castTexts = s.castTexts := by
  simp only [updateAggroLine]

lemma updateAggroLine_aiBubbles (d : Snapshot) (s : SceneState) :
    (updateAggroLine d s).aiBubbles = s.aiBubbles := by
  simp only [updateAggroLine]

lemma updateAggroLine_castArc (d : Snapshot) (s : SceneState) :
    (updateAggroLine d s).castArc = s.castArc := by
  simp only [updateAggroLine]

lemma updateAggroLine_goo (d : Snapshot) (s : SceneState) :
    (updateAggroLine d s).gameOverOverlays = s.gameOverOverlays := by
  simp only [updateAggroLine]

lemma updateAggroLine_aggro (d : Snapshot) (s : SceneState) :
    (updateAggroLine d s).aggroLine = aggroValue d s := by
  simp only [updateAggroLine]

lemma updateCastArc_castTexts (d : Snapshot) (s : SceneState) :
    (updateCastArc d s).castTexts = s.castTexts := by
  simp only [updateCastArc]

lemma updateCastArc_aiBubbles (d : Snapshot) (s : SceneState) :
    (updateCastArc d s).aiBubbles = s.aiBubbles := by
  simp only [updateCastArc]

lemma updateCastArc_aggro (d : Snapshot) (s : SceneState) :
    (updateCastArc d s).aggroLine = s.aggroLine := by
  simp only [updateCastArc]

lemma updateCastArc_goo (d : Snapshot) (s : SceneState) :
    (updateCastArc d s).gameOverOverlays = s.gameOverOverlays := by
  simp only [updateCastArc]

lemma updateCastArc_arc (d : Snapshot) (s : SceneState) :
    (updateCastArc d s).castArc = castArcValue d s := by
  simp only [updateCastArc]

/-- The fields not owned by the cast-text phase. -/
def viewCT (st : SceneState) :
    (String → Option AiBubble) ×
    Option ((Int × Int) × (Int × Int)) × Option ((Int × Int) × ℚ) × Nat :=
  (st.aiBubbles, st.aggroLine, st.castArc, st.gameOverOverlays)

lemma viewCT_showCastText (s : SceneState) (e sk : String) (r : ℚ) (b : Bool) :
    viewCT (showCastText s e sk r b) = viewCT s := by
  unfold showCastText
  cases getEntityPos s (some e) <;> rfl

lemma viewCT_updateAllCastTexts (d : Snapshot) (s : SceneState) :
    viewCT (updateAllCastTexts d s) = viewCT s := by
  unfold updateAllCastTexts
  have hboss : ∀ s' : SceneState, viewCT
      (match d.boss_card with
       | some bc =>
           match bc.casting with
           | some c => showCastText s' "boss" c.skill_name c.remaining true
           | none => hideCastText s' "boss"
       | none => hideCastText s' "boss") = viewCT s' := by
    intro s'
    rcases d.boss_card with _ | bc
    · rfl
    dsimp only
    rcases bc.casting with _ | c
    · rfl
    · apply viewCT_showCastText
  have hstep : ∀ s' kc, viewCT (castTextCharStep s' kc) = viewCT s' := by
    intro s' kc
    unfold castTextCharStep
    cases kc.2.casting
    · rfl
    · apply viewCT_showCastText
  cases d.characters
  · exact hboss s
  · rw [foldl_view_eq viewCT castTextCharStep hstep, hboss]

/-- The fields not owned by the bubble phase. -/
def viewBub (st : SceneState) :
    (String → Option CastText) ×
    Option ((Int × Int) × (Int × Int)) × Option ((Int × Int) × ℚ) × Nat :=
  (st.castTexts, st.aggroLine, st.castArc, st.gameOverOverlays)

lemma viewBub_bubbleStep (now : ℚ) (s : SceneState) (entry : AiEntry) :
    viewBub (bubbleStep now s entry) = viewBub s := by
  unfold bubbleStep
  repeat' (first | split | dsimp only)
  all_goals rfl

lemma viewBub_updateAiBubbles (now : ℚ) (d : Snapshot) (s : SceneState) :
    viewBub (updateAiBubbles now d s) = viewBub s := by
  unfold updateAiBubbles
  cases d.ai_log
  · rfl
  · exact foldl_view_eq viewBub _ (fun s e => viewBub_bubbleStep now s e) _ s

lemma updateAllCastTexts_aiBubbles (d : Snapshot) (s : SceneState) :
    (updateAllCastTexts d s).aiBubbles = s.aiBubbles :=
  congrArg (fun p => p.1) (viewCT_updateAllCastTexts d s)

lemma updateAiBubbles_castTexts (now : ℚ) (d : Snapshot) (s : SceneState) :
    (updateAiBubbles now d s).castTexts = s.castTexts :=
  congrArg (fun p => p.1) (viewBub_updateAiBubbles now d s)

lemma aggroValue_congr {s s' : SceneState} (d : Snapshot)
    (h1 : s.entities = s'.entities) (h2 : s.lastState = s'.lastState) :
    aggroValue d s = aggroValue d s' := by
  unfold aggroValue
  rw [getEntityPos_fun_congr h1 h2]

lemma castArcValue_congr {s s' : SceneState} (d : Snapshot)
    (h1 : s.entities = s'.entities) (h2 : s.lastState = s'.lastState) :
    castArcValue d s = castArcValue d s' := by
  unfold castArcValue
  rw [getEntityPos_fun_congr h1 h2]

lemma bubbleCandidatesFor_congr {s s' : SceneState} (now : ℚ) (d : Snapshot)
    (id : String) (h1 : s.entities = s'.entities)
    (h2 : s.lastState = s'.lastState) :
    bubbleCandidatesFor s now d id = bubbleCandidatesFor s' now d id := by
  unfold bubbleCandidatesFor bubbleValue
  rw [getEntityPos_fun_congr h1 h2]

/-- The state after the update-and-removal half of `_onStateUpdate(d)`. -/
def midOf (st : SceneState) (d : Snapshot) : SceneState :=
  removalPhase d (entityPhase d { st with lastState := some d })

lemma entMaps_proj4 {s s' : SceneState} (h : entMaps s = entMaps s') :
    s.entities = s'.entities ∧ s.nameTexts = s'.nameTexts ∧
    s.hpBars = s'.hpBars ∧ s.lastState = s'.lastState := by
  simpa [entMaps, Prod.ext_iff] using h

lemma updateAggroLine_entities (d : Snapshot) (s : SceneState) :
    (updateAggroLine d s).entities = s.entities := by
  simp only [updateAggroLine]

lemma updateAggroLine_lastState (d : Snapshot) (s : SceneState) :
    (updateAggroLine d s).lastState = s.lastState := by
  simp only [updateAggroLine]

lemma updateCastArc_entities (d : Snapshot) (s : SceneState) :
    (updateCastArc d s).entities = s.entities := by
  simp only [updateCastArc]

lemma updateCastArc_lastState (d : Snapshot) (s : SceneState) :
    (updateCastArc d s).lastState = s.lastState := by
  simp only [updateCastArc]

lemma removalPhase_lastState (d : Snapshot) (s : SceneState) :
    (removalPhase d s).lastState = s.lastState := by
  simp only [removalPhase]

lemma midOf_lastState (st : SceneState) (d : Snapshot) :
    (midOf st d).lastState = some d := by
  unfold midOf
  rw [removalPhase_lastState, entityPhase_lastState]

/-- `_onStateUpdate` leaves the aggro line showing exactly what the boss's
current target resolves to against the reconciled registry. -/
lemma osu_aggro (now : ℚ) (st : SceneState) (d : Snapshot) :
    (onStateUpdate now st (some d)).aggroLine = aggroValue d (midOf st d) := by
  show (updateAiBubbles now d (updateAllCastTexts d (updateCastArc d
      (updateAggroLine d (midOf st d))))).aggroLine = _
  have h1 := congrArg (fun p => p.2.1) (viewBub_updateAiBubbles now d
    (updateAllCastTexts d (updateCastArc d (updateAggroLine d (midOf st d)))))
  have h2 := congrArg (fun p => p.2.1) (viewCT_updateAllCastTexts d
    (updateCastArc d (updateAggroLine d (midOf st d))))
  have h3 := updateCastArc_aggro d (updateAggroLine d (midOf st d))
  have h4 := updateAggroLine_aggro d (midOf st d)
  exact (h1.trans h2).trans (h3.trans h4)

lemma osu_arc (now : ℚ) (st : SceneState) (d : Snapshot) :
    (onStateUpdate now st (some d)).castArc = castArcValue d (midOf st d) := by
  show (updateAiBubbles now d (updateAllCastTexts d (updateCastArc d
      (updateAggroLine d (midOf st d))))).castArc = _
  have hBub : ∀ s, (updateAiBubbles now d s).castArc = s.castArc :=
    fun s => congrArg (fun p => p.2.2.1) (viewBub_updateAiBubbles now d s)
  have hCT : ∀ s, (updateAllCastTexts d s).castArc = s.castArc :=
    fun s => congrArg (fun p => p.2.2.1) (viewCT_updateAllCastTexts d s)
  rw [hBub, hCT, updateCastArc_arc]
  exact castArcValue_congr d (updateAggroLine_entities d _) (updateAggroLine_lastState d _)

lemma viewA_mid (st : SceneState) (d : Snapshot) :
    viewA (midOf st d) = viewA st := by
  unfold midOf
  rw [viewA_removalPhase, viewA_entityPhase]
  rfl

lemma osu_castTexts (now : ℚ) (st : SceneState) (d : Snapshot) (id : String) :
    (onStateUpdate now st (some d)).castTexts id
      = castApplyList (castStepsFor (midOf st d) d id) (st.castTexts id) := by
  show (updateAiBubbles now d (updateAllCastTexts d (updateCastArc d
      (updateAggroLine d (midOf st d))))).castTexts id = _
  rw [updateAiBubbles_castTexts]
  rw [updateAllCastTexts_at]
  have hX : (updateCastArc d (updateAggroLine d (midOf st d))).entities
      = (midOf st d).entities := by
    rw [updateCastArc_entities, updateAggroLine_entities]
  have hXl : (updateCastArc d (updateAggroLine d (midOf st d))).lastState
      = (midOf st d).lastState := by
    rw [updateCastArc_lastState, updateAggroLine_lastState]
  rw [castStepsFor_congr d id hX hXl]
  have hct : (updateCastArc d (updateAggroLine d (midOf st d))).castTexts
      = st.castTexts := by
    rw [updateCastArc_castTexts, updateAggroLine_castTexts]
    exact congrArg (fun p => p.1) (viewA_mid st d)
  rw [hct]

lemma osu_bubbles (now : ℚ) (st : SceneState) (d : Snapshot) (id : String) :
    (onStateUpdate now st (some d)).aiBubbles id
      = bubbleApplyList (bubbleCandidatesFor (midOf st d) now d id)
          (st.aiBubbles id) := by
  show (updateAiBubbles now d (updateAllCastTexts d (updateCastArc d
      (updateAggroLine d (midOf st d))))).aiBubbles id = _
  rw [updateAiBubbles_at]
  have hY : (updateAllCastTexts d (updateCastArc d (updateAggroLine d (midOf st d)))).entities
      = (midOf st d).entities := by
    have := (entMaps_proj (entMaps_updateAllCastTexts d
      (updateCastArc d (updateAggroLine d (midOf st d))))).1
    rw [this, updateCastArc_entities, updateAggroLine_entities]
  have hYl : (updateAllCastTexts d (updateCastArc d (updateAggroLine d (midOf st d)))).lastState
      = (midOf st d).lastState := by
    have := (entMaps_proj (entMaps_updateAllCastTexts d
      (updateCastArc d (updateAggroLine d (midOf st d))))).2
    rw [this, updateCastArc_lastState, updateAggroLine_lastState]
  rw [bubbleCandidatesFor_congr now d id hY hYl]
  have hab : (updateAllCastTexts d (updateCastArc d (updateAggroLine d (midOf st d)))).aiBubbles
      = st.aiBubbles := by
    rw [updateAllCastTexts_aiBubbles, updateCastArc_aiBubbles, updateAggroLine_aiBubbles]
    exact congrArg (fun p => p.2.1) (viewA_mid st d)
  rw [hab]

lemma osu_goo (now : ℚ) (st : SceneState) (d : Snapshot) :
    (onStateUpdate now st (some d)).gameOverOverlays = st.gameOverOverlays := by
  show (updateAiBubbles now d (updateAllCastTexts d (updateCastArc d
      (updateAggroLine d (midOf st d))))).gameOverOverlays = _
  have hBub : ∀ s, (updateAiBubbles now d s).gameOverOverlays = s.gameOverOverlays :=
    fun s => congrArg (fun p => p.2.2.2) (viewBub_updateAiBubbles now d s)
  have hCT : ∀ s, (updateAllCastTexts d s).gameOverOverlays = s.gameOverOverlays :=
    fun s => congrArg (fun p => p.2.2.2) (viewCT_updateAllCastTexts d s)
  rw [hBub, hCT, updateCastArc_goo, updateAggroLine_goo]
  exact congrArg (fun p => p.2.2.2.2) (viewA_mid st d)

lemma osu_lastState (now : ℚ) (st : SceneState) (d : Snapshot) :
    (onStateUpdate now st (some d)).lastState = some d := by
  have h := (entMaps_proj4 (onStateUpdate_entMaps now st d)).2.2.2
  rw [h]
  exact midOf_lastState st d

lemma onStateUpdate_entMaps_mid (now : ℚ) (st : SceneState) (d : Snapshot) :
    entMaps (onStateUpdate now st (some d)) = entMaps (midOf st d) :=
  onStateUpdate_entMaps now st d

set_option maxHeartbeats 1600000 in
/-- C6. Reconciliation is idempotent: for every snapshot `d` and every scene
state `st`, running `_onStateUpdate(d)` twice in a row leaves exactly the
state produced by the first run — same entity registry (sprites, name texts,
HP bars), same derived visuals (aggro line, cast arc, AI bubbles, cast
texts), same animation-sequencer state. -/
theorem reconcile_idempotent (now : ℚ) (st : SceneState) (d : Option Snapshot) :
    onStateUpdate now (onStateUpdate now st d) d = onStateUpdate now st d := by
  cases d with
  | none => rfl
  | some d =>
    have hmaps1 : entMaps (onStateUpdate now st (some d)) = entMaps (midOf st d) :=
      onStateUpdate_entMaps_mid now st d
    have hmaps2 : entMaps (onStateUpdate now (onStateUpdate now st (some d)) (some d))
        = entMaps (midOf (onStateUpdate now st (some d)) d) :=
      onStateUpdate_entMaps_mid now (onStateUpdate now st (some d)) d
    have hview : ∀ id, entView3 (midOf (onStateUpdate now st (some d)) d) id
        = entView3 (midOf st d) id :=
      fun id => mid_entView3_idem d st (onStateUpdate now st (some d)) hmaps1 id
    have hE2 : (midOf (onStateUpdate now st (some d)) d).entities = (midOf st d).entities :=
      funext fun id => congrArg (fun p => p.1) (hview id)
    have hN2 : (midOf (onStateUpdate now st (some d)) d).nameTexts = (midOf st d).nameTexts :=
      funext fun id => congrArg (fun p => p.2.1) (hview id)
    have hH2 : (midOf (onStateUpdate now st (some d)) d).hpBars = (midOf st d).hpBars :=
      funext fun id => congrArg (fun p => p.2.2) (hview id)
    have hL2 : (midOf (onStateUpdate now st (some d)) d).lastState = (midOf st d).lastState :=
      (midOf_lastState _ d).trans (midOf_lastState st d).symm
    obtain ⟨p1E, p1N, p1H, -⟩ := entMaps_proj4 hmaps1
    obtain ⟨p2E, p2N, p2H, -⟩ := entMaps_proj4 hmaps2
    have hanim := animView_onStateUpdate now (onStateUpdate now st (some d)) (some d)
    have hQ : (onStateUpdate now (onStateUpdate now st (some d)) (some d)).animQueue
        = (onStateUpdate now st (some d)).animQueue :=
      congrArg (fun p => p.1) hanim
    have hP : (onStateUpdate now (onStateUpdate now st (some d)) (some d)).animPlaying
        = (onStateUpdate now st (some d)).animPlaying :=
      congrArg (fun p => p.2.1) hanim
    have hIF : (onStateUpdate now (onStateUpdate now st (some d)) (some d)).animInFlight
        = (onStateUpdate now st (some d)).animInFlight :=
      congrArg (fun p => p.2.2.1) hanim
    have hLog : (onStateUpdate now (onStateUpdate now st (some d)) (some d)).animLog
        = (onStateUpdate now st (some d)).animLog :=
      congrArg (fun p => p.2.2.2) hanim
    apply SceneState.ext
    · exact p2E.trans (hE2.trans p1E.symm)
    · exact p2H.trans (hH2.trans p1H.symm)
    · exact p2N.trans (hN2.trans p1N.symm)
    · exact (osu_lastState now (onStateUpdate now st (some d)) d).trans
        (osu_lastState now st d).symm
    · exact hQ
    · exact hP
    · exact (osu_aggro now (onStateUpdate now st (some d)) d).trans
        ((aggroValue_congr d hE2 hL2).trans (osu_aggro now st d).symm)
    · exact (osu_arc now (onStateUpdate now st (some d)) d).trans
        ((castArcValue_congr d hE2 hL2).trans (osu_arc now st d).symm)
    · funext id
      rw [osu_bubbles now (onStateUpdate now st (some d)) d id,
        bubbleCandidatesFor_congr now d id hE2 hL2,
        osu_bubbles now st d id, bubbleApplyList_idem,
        ← osu_bubbles now st d id]
    · funext id
      rw [osu_castTexts now (onStateUpdate now st (some d)) d id,
        castStepsFor_congr d id hE2 hL2,
        osu_castTexts now st d id, castApplyList_idem,
        ← osu_castTexts now st d id]
    · exact osu_goo now (onStateUpdate now st (some d)) d
    · exact hIF
    · exact hLog

lemma entView3_congr_entMaps {s s' : SceneState} (h : entMaps s = entMaps s')
    (id : String) : entView3 s id = entView3 s' id := by
  obtain ⟨h1, h2, h3, -⟩ := entMaps_proj4 h
  rw [entView3, entView3, h1, h2, h3]

lemma entView3_removalPhase_nonAdd (d : Snapshot) (s : SceneState)
    (id : String) (h : id.startsWith "add_" = false) :
    entView3 (removalPhase d s) id = entView3 s id := by
  show ((removalPhase d s).entities id, (removalPhase d s).nameTexts id,
    (removalPhase d s).hpBars id) = _
  simp only [removalPhase]
  rw [h]
  rfl

lemma applyRes_recAt (st : SceneState) (id : String) :
    applyRes (recAt st id) (entView3 st id) = entView3 st id :=
  (entityFold_at [] st id).symm

lemma applyRes_fst_isSome (x : Option EntRec)
    (fb : Option Sprite × Option NameText × Option HpBar)
    (h : x.isSome) : ((applyRes x fb).1).isSome := by
  cases x with
  | none => simp at h
  | some r => rfl

lemma mem_aliveAddIds_updsFor (d : Snapshot) (id : String)
    (h : id ∈ aliveAddIds d) : updsFor d id ≠ [] := by
  obtain ⟨a, ha, hif⟩ := List.mem_filterMap.mp h
  have halive : (a.info.alive == some true) = true := by
    by_contra hne
    rw [Bool.not_eq_true] at hne
    rw [hne] at hif
    exact Option.noConfusion hif
  have hid : a.id = id := by
    rw [halive] at hif
    simpa using hif
  have hmem : (⟨a.id, a.info, false⟩ : Upd) ∈ updListOf d := by
    unfold updListOf
    refine List.mem_append.mpr (Or.inr ?_)
    exact List.mem_filterMap.mpr ⟨a, ha, by rw [halive]; rfl⟩
  have hmem2 : (⟨a.id, a.info, false⟩ : Upd) ∈ updsFor d id := by
    unfold updsFor
    exact List.mem_filter.mpr ⟨hmem, by simp [hid]⟩
  exact List.ne_nil_of_mem hmem2

lemma midOf_entities_isSome_iff (st : SceneState) (d : Snapshot) (id : String)
    (hpre : id.startsWith "add_" = true) :
    ((midOf st d).entities id).isSome = true ↔ id ∈ aliveAddIds d := by
  unfold midOf
  rw [removalPhase_entities_at]
  by_cases hmem : id ∈ aliveAddIds d
  · have hc : (aliveAddIds d).contains id = true := by
      simpa using hmem
    rw [hpre, hc]
    simp only [Bool.not_true, Bool.and_false, if_false]
    have hupds := mem_aliveAddIds_updsFor d id hmem
    have h1 := congrArg (fun p => p.1)
      (entityPhase_at d { st with lastState := some d } id)
    have h2 : (entityPhase d { st with lastState := some d }).entities id
        = (applyRes (applyUpds (updsFor d id)
            (recAt { st with lastState := some d } id))
            (entView3 { st with lastState := some d } id)).1 := h1
    rw [h2]
    constructor
    · intro _; exact hmem
    · intro _
      exact applyRes_fst_isSome _ _ (applyUpds_isSome_of_ne_nil _ _ hupds)
  · have hc : (aliveAddIds d).contains id = false := by
      simpa using hmem
    rw [hpre, hc]
    simp only [Bool.not_false, Bool.and_true, if_true]
    constructor
    · intro h; exact absurd h (by simp)
    · intro h; exact absurd h hmem

/-! ### Concrete transient-lifecycle scenario (two adds, then one) -/

/-- Add `A` of the C3 scenario, alive in both snapshots. -/
def addInfoA : EntInfo :=
  { id := some "add_A", role := none, type := some "imp", name := some "Imp A",
    hp := some 5, max_hp := some 10, alive := some true, casting := none }

/-- Add `B` of the C3 scenario, present only in the first snapshot. -/
def addInfoB : EntInfo :=
  { id := some "add_B", role := none, type := some "imp", name := some "Imp B",
    hp := some 7, max_hp := some 10, alive := some true, casting := none }

/-- First snapshot: transient ids `{add_A: alive, add_B: alive}`. -/
def snapAB : Snapshot :=
  { boss := none, characters := none,
    adds := some [⟨"add_A", addInfoA⟩, ⟨"add_B", addInfoB⟩],
    boss_card := none, ai_log := none }

/-- Second snapshot: transient id `{add_A: alive}` only. -/
def snapA : Snapshot :=
  { boss := none, characters := none,
    adds := some [⟨"add_A", addInfoA⟩],
    boss_card := none, ai_log := none }

/-- The scene after reconciling the two-add snapshot from a fresh scene. -/
def sceneAB : SceneState := onStateUpdate 0 battleSceneInit (some snapAB)

/-- The scene after then reconciling the one-add snapshot. -/
def sceneA2 : SceneState := onStateUpdate 0 sceneAB (some snapA)

set_option maxHeartbeats 3200000 in
/-- C3. Transient-entity membership tracks alive status: after any reconcile,
an `add_`-prefixed id has a registered record iff the snapshot lists it as an
alive add (so alive adds without a record get one created, and stale adds are
removed).  In the concrete `{A, B}`-then-`{A}` scenario, both records exist
after the first reconcile; the second destroys `add_B`'s sprite, name text
and HP bar and removes them from the registries, while `add_A`'s record
survives unchanged. -/
theorem transient_lifecycle :
    (∀ (now : ℚ) (st : SceneState) (d : Snapshot) (id : String),
      id.startsWith "add_" = true →
      (((onStateUpdate now st (some d)).entities id).isSome = true
        ↔ id ∈ aliveAddIds d))
    ∧ (sceneAB.entities "add_A").isSome = true
    ∧ (sceneAB.entities "add_B").isSome = true
    ∧ sceneA2.entities "add_B" = none
    ∧ sceneA2.nameTexts "add_B" = none
    ∧ sceneA2.hpBars "add_B" = none
    ∧ entView3 sceneA2 "add_A" = entView3 sceneAB "add_A" := by
  refine ⟨?_, ?_, ?_, ?_, ?_, ?_, ?_⟩
  · intro now st d id hpre
    have hmaps := entMaps_proj4 (onStateUpdate_entMaps_mid now st d)
    rw [congrFun hmaps.1 id]
    exact midOf_entities_isSome_iff st d id hpre
  · with_unfolding_all rfl
  · with_unfolding_all rfl
  · with_unfolding_all rfl
  · with_unfolding_all rfl
  · with_unfolding_all rfl
  · with_unfolding_all rfl

lemma entView3_onStateUpdate_mid (now : ℚ) (st : SceneState) (d : Snapshot)
    (id : String) :
    entView3 (onStateUpdate now st (some d)) id = entView3 (midOf st d) id :=
  entView3_congr_entMaps (onStateUpdate_entMaps_mid now st d) id

/-- An id without the `add_` prefix that receives no `_updateEntity` call is
left untouched by `_onStateUpdate` in all three registries. -/
lemma nonAdd_noUpds_unchanged (now : ℚ) (st : SceneState) (d : Snapshot)
    (id : String) (hpre : id.startsWith "add_" = false)
    (hupd : updsFor d id = []) :
    entView3 (onStateUpdate now st (some d)) id = entView3 st id := by
  rw [entView3_onStateUpdate_mid]
  unfold midOf
  rw [entView3_removalPhase_nonAdd d _ id hpre]
  rw [entityPhase_at, hupd]
  have h1 : applyUpds [] (recAt { st with lastState := some d } id)
      = recAt { st with lastState := some d } id := rfl
  rw [h1, applyRes_recAt]
  rfl

set_option maxHeartbeats 1600000 in
/-- A registered id without the `add_` prefix is still registered after any
`_onStateUpdate`: updates never delete, and the dead-add cleanup only touches
`add_`-prefixed ids. -/
lemma retain_nonAdd_isSome (now : ℚ) (st : SceneState) (d : Snapshot)
    (id : String) (hpre : id.startsWith "add_" = false)
    (hsome : (st.entities id).isSome = true) :
    ((onStateUpdate now st (some d)).entities id).isSome = true := by
  show ((entView3 (onStateUpdate now st (some d)) id).1).isSome = true
  rw [entView3_onStateUpdate_mid now st d id]
  show ((removalPhase d (entityPhase d { st with lastState := some d })).entities id).isSome
    = true
  rw [removalPhase_entities_at, hpre]
  simp only [Bool.false_and, if_false]
  show ((entView3 (entityPhase d { st with lastState := some d }) id).1).isSome = true
  rw [entityPhase_at]
  by_cases hL : updsFor d id = []
  · rw [hL]
    have h4 : applyUpds [] (recAt { st with lastState := some d } id)
        = recAt { st with lastState := some d } id := rfl
    rw [h4, applyRes_recAt]
    exact hsome
  · exact applyRes_fst_isSome _ _ (applyUpds_isSome_of_ne_nil _ _ hL)

/-- C7. Primary persistence: an id without the `add_` prefix that the
snapshot does not mention is left unchanged (sprite, name text, HP bar) by
reconciliation, and a registered non-`add_` id is never deleted by any
reconcile call; in particular a snapshot with no `boss` field (and no
character or add named `boss`) leaves the boss record untouched. -/
theorem primary_persistence (now : ℚ) (st : SceneState) (d : Snapshot) :
    (∀ id, id.startsWith "add_" = false →
      (updsFor d id = [] →
        entView3 (onStateUpdate now st (some d)) id = entView3 st id)
      ∧ ((st.entities id).isSome = true →
        ((onStateUpdate now st (some d)).entities id).isSome = true))
    ∧ (d.boss = none →
       (∀ kc ∈ d.characters.getD [], kc.1 ≠ "boss") →
       (∀ a ∈ addsOf d, a.id ≠ "boss") →
       entView3 (onStateUpdate now st (some d)) "boss" = entView3 st "boss") := by
  constructor
  · intro id hpre
    exact ⟨nonAdd_noUpds_unchanged now st d id hpre,
           retain_nonAdd_isSome now st d id hpre⟩
  · intro hboss hchars hadds
    have hupds : updsFor d "boss" = [] := by
      unfold updsFor
      rw [List.filter_eq_nil]
      intro u hu
      simp only [beq_iff_eq]
      unfold updListOf at hu
      rcases List.mem_append.mp hu with hu1 | hu3
      · rcases List.mem_append.mp hu1 with hu1a | hu2
        · rw [hboss] at hu1a
          simp at hu1a
        · match hc : d.characters with
          | none => rw [hc] at hu2; simp at hu2
          | some chars =>
              rw [hc] at hu2
              obtain ⟨kc, hkc, hmap⟩ := List.mem_map.mp hu2
              have : kc.1 ≠ "boss" := hchars kc (by rw [hc]; exact hkc)
              rw [← hmap]
              exact this
      · obtain ⟨a, ha, hif⟩ := List.mem_filterMap.mp hu3
        have : u.id = a.id := by
          by_cases halive : (a.info.alive == some true) = true
          · rw [halive] at hif
            simp only [if_true] at hif
            rw [← Option.some.inj hif]
          · rw [Bool.not_eq_true] at halive
            rw [halive] at hif
            simp at hif
        rw [this]
        exact hadds a ha
    exact nonAdd_noUpds_unchanged now st d "boss" (by with_unfolding_all rfl) hupds

/-- C10. Reconciliation only ever removes `add_`-prefixed records: a
registered id not starting with `add_` survives every `_onStateUpdate`
call, whatever the snapshot says (or even with no snapshot at all); only
`_onGameReset` clears such records, and it clears every registry entirely. -/
theorem only_transients_removed (now : ℚ) (st : SceneState)
    (d : Option Snapshot) :
    (∀ id, id.startsWith "add_" = false → (st.entities id).isSome = true →
      ((onStateUpdate now st d).entities id).isSome = true)
    ∧ (∀ id, (onGameReset st).entities id = none
        ∧ (onGameReset st).nameTexts id = none
        ∧ (onGameReset st).hpBars id = none) := by
  constructor
  · intro id hpre hsome
    cases d with
    | none => exact hsome
    | some d => exact retain_nonAdd_isSome now st d id hpre hsome
  · intro id
    exact ⟨rfl, rfl, rfl⟩

/-- A snapshot whose only content is a live boss. -/
def bossInfo : EntInfo :=
  { id := some "boss", role := none, type := some "demon_lord",
    name := some "Boss", hp := some 100, max_hp := some 100,
    alive := some true, casting := none }

def snapBoss : Snapshot :=
  { boss := some ⟨bossInfo, none, none⟩, characters := none, adds := none,
    boss_card := none, ai_log := none }

/-- A scene holding a registered boss record. -/
def sceneBoss : SceneState := onStateUpdate 0 battleSceneInit (some snapBoss)

theorem transient_lifecycle_witness :
    "add_B".startsWith "add_" = true
    ∧ (((onStateUpdate 0 battleSceneInit (some snapA)).entities "add_B").isSome
          = true
        ↔ "add_B" ∈ aliveAddIds snapA) :=
  ⟨by with_unfolding_all rfl,
   transient_lifecycle.1 0 battleSceneInit snapA "add_B"
     (by with_unfolding_all rfl)⟩

theorem primary_persistence_witness :
    ("boss".startsWith "add_" = false ∧ updsFor snapA "boss" = [])
    ∧ entView3 (onStateUpdate 0 sceneBoss (some snapA)) "boss"
        = entView3 sceneBoss "boss" :=
  ⟨⟨by with_unfolding_all rfl, by with_unfolding_all rfl⟩,
   ((primary_persistence 0 sceneBoss snapA).1 "boss"
     (by with_unfolding_all rfl)).1 (by with_unfolding_all rfl)⟩

theorem only_transients_removed_witness :
    ("boss".startsWith "add_" = false
      ∧ (sceneBoss.entities "boss").isSome = true)
    ∧ ((onStateUpdate 0 sceneBoss (some snapA)).entities "boss").isSome
        = true :=
  ⟨⟨by with_unfolding_all rfl, by with_unfolding_all rfl⟩,
   (only_transients_removed 0 sceneBoss (some snapA)).1 "boss"
     (by with_unfolding_all rfl) (by with_unfolding_all rfl)⟩

/-- C5 counterexample. The spec says unknown frame types are still published;
in the code the if/else-if chain of `_ws.onmessage` (ws.js lines 1634-1648)
has no else branch, so a parsed frame with an unrecognized type string (here
`"telemetry"`) produces no `_emit` call at all: it is dropped by the
transport, not forwarded to subscribers. -/
theorem unknown_frame_dropped_cex :
    onMessageEmits (α := Nat) (some ⟨"telemetry", 7⟩) = [] := by
  with_unfolding_all rfl

/-- C5 (amended). The transport publishes a parsed frame, keyed by its type
with `data` as payload, exactly when the type is one of the four recognized
ones (`state_update`, `combat_log`, `game_over`, `animation`); a parsed
frame with any other type string is dropped without any publication. -/
theorem frame_dispatch_known_types {α : Type} (m : Frame α) :
    (m.type ∈ knownFrameTypes → onMessageEmits (some m) = [(m.type, m.data)])
    ∧ (m.type ∉ knownFrameTypes → onMessageEmits (some m) = []) := by
  constructor
  · intro h
    simp only [knownFrameTypes, List.mem_cons, List.not_mem_nil, or_false] at h
    rcases h with h | h | h | h <;>
      simp [onMessageEmits, h]
  · intro h
    simp only [knownFrameTypes, List.mem_cons, List.not_mem_nil, or_false,
      not_or] at h
    obtain ⟨h1, h2, h3, h4⟩ := h
    simp [onMessageEmits, h1, h2, h3, h4]

theorem frame_dispatch_known_types_witness :
    ("animation" ∈ knownFrameTypes
      ∧ onMessageEmits (α := Nat) (some ⟨"animation", 3⟩)
          = [("animation", 3)]) :=
  ⟨by simp [knownFrameTypes],
   (frame_dispatch_known_types (⟨"animation", 3⟩ : Frame Nat)).1
     (by simp [knownFrameTypes])⟩

/-- C4. The scene's `game_reset` handler is fully implemented (it clears
every registry and forces the sequencer idle) and is subscribed at scene
creation (BattleScene.js line 56), but the final transport's `onmessage`
dispatcher never emits a `game_reset` event for any inbound frame whatsoever
(the if/else-if chain at ws.js lines 1634-1648 has no such branch), so a
server `game_reset` frame never triggers the reset. -/
theorem game_reset_never_dispatched {α : Type} (msg : Option (Frame α)) :
    (∀ p ∈ onMessageEmits msg, p.1 ≠ "game_reset")
    ∧ (∀ st : SceneState,
        (onGameReset st).entities = (fun _ => none)
        ∧ (onGameReset st).nameTexts = (fun _ => none)
        ∧ (onGameReset st).hpBars = (fun _ => none)
        ∧ (onGameReset st).animQueue = []
        ∧ (onGameReset st).animPlaying = false
        ∧ (onGameReset st).aggroLine = none
        ∧ (onGameReset st).castArc = none
        ∧ (onGameReset st).aiBubbles = (fun _ => none)
        ∧ (onGameReset st).castTexts = (fun _ => none)) := by
  constructor
  · intro p hp
    match msg with
    | none => simp [onMessageEmits] at hp
    | some m =>
        simp only [onMessageEmits] at hp
        repeat' split at hp
        all_goals simp at hp
        all_goals (rw [hp]; simp)
  · intro st
    exact ⟨rfl, rfl, rfl, rfl, rfl, rfl, rfl, rfl, rfl⟩

theorem game_reset_never_dispatched_witness :
    (("state_update", 1) ∈ onMessageEmits (α := Nat) (some ⟨"state_update", 1⟩))
    ∧ ("state_update", (1 : Nat)).1 ≠ "game_reset" :=
  ⟨by simp [onMessageEmits],
   (game_reset_never_dispatched (α := Nat) (some ⟨"state_update", 1⟩)).1
     ("state_update", 1) (by simp [onMessageEmits])⟩

/-- If `_getEntityPos` knows no position for a present id, then in particular
the id has no registered sprite (the registry is the first lookup tried). -/
lemma pos_none_sprite_none (st : SceneState) (s : String)
    (h : getEntityPos st (some s) = none) : st.entities s = none := by
  unfold getEntityPos at h
  cases he : (some s).bind st.entities with
  | some sp => rw [he] at h; exact Option.noConfusion h
  | none => simpa using he

/-- The blizzard command of the C8 counterexample: its target id resolves to
no known position, yet the choreography is not synchronous. -/
def blizzardCmd : AnimCmd :=
  { anim_type := "blizzard", source_id := some "boss",
    target_id := some "ghost", value := none, phase := none }

/-- C8 counterexample.  The spec says a command whose source or target id
has no known position completes immediately.  `blizzard` (BattleScene.js
line 696) never resolves entity ids: enqueueing a blizzard whose target
(`"ghost"`) has no known position in the fresh scene leaves the sequencer
playing (`_animPlaying === true`) with no completion fired (the ghost log
records only the dispatch), instead of completing immediately. -/
theorem stuck_choreo_cex :
    getEntityPos battleSceneInit (some "ghost") = none
    ∧ (runClient [ClientInput.frameAnimation (some blizzardCmd)]).animPlaying
        = true
    ∧ (runClient [ClientInput.frameAnimation (some blizzardCmd)]).animLog
        = [AnimEvent.start blizzardCmd] := by
  refine ⟨?_, ?_, ?_⟩ <;> with_unfolding_all rfl

/-- C8 (amended).  The queue-drain guarantee holds for every kind except the
two timed-spectacle choreographies (`blizzard`, `phase_change`), which play
without resolving entities: (1) a command whose kind has no registered
choreography is completed synchronously by the `default` branch; (2) a
command of any other kind whose source and target ids are both present but
resolve to no known position is completed synchronously by the guard
clauses; (3) whenever the head command is synchronous, one drain step
records its dispatch and completion and continues with the rest of the
queue. -/
theorem queue_always_drains_amended :
    (∀ (st : SceneState) (c : AnimCmd), c.anim_type ∉ knownAnimKinds →
      choreoSync st c = true)
    ∧ (∀ (st : SceneState) (c : AnimCmd) (s t : String),
        c.anim_type ≠ "blizzard" → c.anim_type ≠ "phase_change" →
        c.source_id = some s → c.target_id = some t →
        getEntityPos st (some s) = none → getEntityPos st (some t) = none →
        choreoSync st c = true)
    ∧ (∀ (st : SceneState) (c : AnimCmd) (rest : List AnimCmd),
        st.animPlaying = false → st.animQueue = c :: rest →
        choreoSync st c = true →
        processAnimQueue st
          = paqF rest.length
              { st with animQueue := rest, animPlaying := false,
                        animLog := st.animLog
                          ++ [AnimEvent.start c, AnimEvent.finish c] }) := by
  refine ⟨?_, ?_, ?_⟩
  · intro st c hk
    unfold choreoSync
    split <;> simp_all [knownAnimKinds]
  · intro st c s t hb hp hs ht hpos1 hpos2
    unfold choreoSync
    split
    · rw [hs, ht, hpos1, hpos2]; rfl
    · rw [ht, hpos2]; rfl
    · exact absurd (by assumption) hb
    · rw [hs, ht, hpos2]
      have : (some s).bind st.entities = none := by
        simpa using pos_none_sprite_none st s hpos1
      rw [this]; rfl
    · rw [hs, hpos1]; rfl
    · rw [ht, hpos2]; simp
    · rw [hs, ht, hpos1, hpos2]; rfl
    · rfl
    · rfl
    · exact absurd (by assumption) hp
    · rw [ht]
      have : (some t).bind st.entities = none := by
        simpa using pos_none_sprite_none st t hpos2
      rw [this]; rfl
    · rw [ht, hpos2]; rfl
    · rw [hs, ht]
      show (getEntityPos st (jsOrS (some s) (some t))).isNone = true
      unfold jsOrS
      by_cases hse : s = ""
      · simp only [hse, if_true]
        rw [hpos2]; rfl
      · simp only [hse, if_false]
        rw [hpos1]; rfl
    · rfl
  · intro st c rest hpl hq hsync
    unfold processAnimQueue
    rw [hq]
    show paqF (rest.length + 1) st = _
    simp only [paqF, hpl, hq, hsync]
    simp [List.append_assoc]

theorem queue_always_drains_amended_witness :
    ((⟨"sparkle", none, none, none, none⟩ : AnimCmd).anim_type ∉ knownAnimKinds)
    ∧ choreoSync battleSceneInit ⟨"sparkle", none, none, none, none⟩ = true :=
  ⟨by simp [knownAnimKinds],
   queue_always_drains_amended.1 battleSceneInit
     ⟨"sparkle", none, none, none, none⟩ (by simp [knownAnimKinds])⟩
